import Mathlib

/-!
# Verification of the AmazonProductFeedEnricher validation & enrichment engine

A shallow embedding, in Lean 4, of the rule-driven validation and enrichment
engine of the repository (`EnrichmentService` and `ValidationEngine`,
`src/unnamed/part_006`).  JavaScript strings are modelled as `List Char`,
JavaScript scalar values as `JVal` (strings, integral numbers, `null`;
an absent key / `undefined` is `Option.none` at the access site), and a
record (one product row) as an association list `JRecord` with the unique-key
discipline of JS objects.  Database-backed state (lookup tables, brand names,
validation rules) is passed explicitly, mirroring the snapshot the engine
loads once per run.  The JS regular-expression engine used by `regex`-type
rules is abstracted as a compile function `List Char → Option (List Char → Bool)`
(`none` models `new RegExp` throwing a `SyntaxError`); the fallible
`applyRule` is embedded in `Except Unit`, where `.error` models an uncaught
exception.
-/

set_option maxRecDepth 10000

namespace Enricher

/-! ## Characters

`\s` / `String.prototype.trim` whitespace, `\d` digits, ASCII letters and the
case maps are modelled over explicit character lists so that every fact about
them is provable by finite case analysis (the source only ever feeds ASCII
data through these paths).
-/

/-- Whitespace characters of the JS `\s` class / `trim` (ASCII part). -/
def wsChars : List Char := [' ', '\t', '\n', '\r', Char.ofNat 11, Char.ofNat 12]

def isWsChar (c : Char) : Bool := wsChars.contains c

/-- The decimal digit characters, i.e. the JS `\d` class. -/
def digitChars : List Char :=
  ['0', '1', '2', '3', '4', '5', '6', '7', '8', '9']

def isDigitChar (c : Char) : Bool := digitChars.contains c

/-- Numeric value of a digit character (`parseInt` on a single digit). -/
def digitVal (c : Char) : Nat := c.toNat - 48

/-- The digit character for `d < 10` (`Number.prototype.toString` digit). -/
def digitChar (d : Nat) : Char := digitChars.getD d '0'

def lowerAlphaChars : List Char :=
  ['a', 'b', 'c', 'd', 'e', 'f', 'g', 'h', 'i', 'j', 'k', 'l', 'm',
   'n', 'o', 'p', 'q', 'r', 's', 't', 'u', 'v', 'w', 'x', 'y', 'z']

def upperAlphaChars : List Char :=
  ['A', 'B', 'C', 'D', 'E', 'F', 'G', 'H', 'I', 'J', 'K', 'L', 'M',
   'N', 'O', 'P', 'Q', 'R', 'S', 'T', 'U', 'V', 'W', 'X', 'Y', 'Z']

/-- The `[a-zA-Z]` class used by the title-quality and HTML-tag patterns. -/
def isAlphaChar (c : Char) : Bool :=
  lowerAlphaChars.contains c || upperAlphaChars.contains c

def isAlnumChar (c : Char) : Bool := isAlphaChar c || isDigitChar c

/-- `String.prototype.toUpperCase`, character-wise (ASCII). -/
def toUpperChar (c : Char) : Char :=
  (((lowerAlphaChars.zip upperAlphaChars).find? (fun p => p.1 == c)).map Prod.snd).getD c

/-- `String.prototype.toLowerCase`, character-wise (ASCII). -/
def toLowerChar (c : Char) : Char :=
  (((upperAlphaChars.zip lowerAlphaChars).find? (fun p => p.1 == c)).map Prod.snd).getD c

/-! ## Strings -/

/-- `String.prototype.trim`. -/
def jsTrim (s : List Char) : List Char :=
  ((s.dropWhile isWsChar).reverse.dropWhile isWsChar).reverse

/-- Helper for `replace(/\s+/g, ' ')`: the flag records whether the previous
character was part of a whitespace run already replaced. -/
def wsCollapseAux : Bool → List Char → List Char
  | _, [] => []
  | prev, c :: cs =>
    if isWsChar c then
      if prev then wsCollapseAux true cs else ' ' :: wsCollapseAux true cs
    else c :: wsCollapseAux false cs

/-- `value.trim().replace(/\s+/g, ' ')` — the whitespace auto-fix. -/
def jsWsFix (s : List Char) : List Char := wsCollapseAux false (jsTrim s)

/-- `replace(/\s+/g, '')` — strips every whitespace character. -/
def jsStripWs (s : List Char) : List Char := s.filter (fun c => !isWsChar c)

/-- `replace(/\D/g, '')` — keeps only the decimal digits. -/
def digitsOnly (s : List Char) : List Char := s.filter isDigitChar

def jsToUpper (s : List Char) : List Char := s.map toUpperChar

def jsToLower (s : List Char) : List Char := s.map toLowerChar

/-- `String.prototype.includes` (contiguous substring test). -/
def listContains (hay pat : List Char) : Bool :=
  hay.tails.any (fun t => pat.isPrefixOf t)

/-- First-occurrence `String.prototype.replace` with a plain-string pattern. -/
def replaceFirst (s pat rep : List Char) : List Char :=
  match s with
  | [] => if pat.isPrefixOf ([] : List Char) then rep else []
  | c :: cs =>
    if pat.isPrefixOf (c :: cs) then rep ++ (c :: cs).drop pat.length
    else c :: replaceFirst cs pat rep

/-! ## Decimal rendering and parsing -/

/-- Fuel-based base-10 expansion (structural, so that the kernel can
evaluate it); `natDigits` supplies enough fuel. -/
def natDigitsGo : Nat → Nat → List Nat
  | 0, n => [n]
  | fuel + 1, n => if n < 10 then [n] else natDigitsGo fuel (n / 10) ++ [n % 10]

/-- The base-10 digit expansion, most significant first. -/
def natDigits (n : Nat) : List Nat := natDigitsGo n n

/-- `Number.prototype.toString` for a natural number. -/
def natToChars (n : Nat) : List Char := (natDigits n).map digitChar

/-- `Number.prototype.toString` for an integral number. -/
def intToChars (i : Int) : List Char :=
  if i < 0 then '-' :: natToChars (-i).toNat else natToChars i.toNat

/-- Value of a digit string, most significant first. -/
def digitsToNat (ds : List Char) : Nat :=
  ds.foldl (fun a c => 10 * a + digitVal c) 0

/-- Optional sign at the head of a numeric literal: the sign factor and the
remainder. -/
def splitSign (t : List Char) : Int × List Char :=
  match t with
  | [] => (1, [])
  | c :: r =>
    if c = '-' then (-1, r) else if c = '+' then (1, r) else (1, c :: r)

/-- `parseInt(s, 10)`: skip leading whitespace, optional sign, then the
longest digit prefix; `none` models `NaN`. -/
def parseIntJs (s : List Char) : Option Int :=
  let t := s.dropWhile isWsChar
  let sg := splitSign t
  let ds := sg.2.takeWhile isDigitChar
  if ds.isEmpty then none else some (sg.1 * digitsToNat ds)

/-- `parseFloat`: skip leading whitespace, optional sign, digits, optional
fractional part; the longest such prefix is taken and `none` models `NaN`.
(Exponent suffixes and `Infinity` are not modelled; no code path a claim
exercises produces them.) -/
def parseFloatJs (s : List Char) : Option ℚ :=
  let t := s.dropWhile isWsChar
  let sg := splitSign t
  let ds := sg.2.takeWhile isDigitChar
  let r2 := sg.2.dropWhile isDigitChar
  if r2.head? = some '.' then
    let fs := (r2.drop 1).takeWhile isDigitChar
    if ds.isEmpty && fs.isEmpty then none
    else some ((sg.1 : ℚ) * ((digitsToNat ds : ℚ) + (digitsToNat fs : ℚ) / 10 ^ fs.length))
  else if ds.isEmpty then none else some ((sg.1 : ℚ) * (digitsToNat ds : ℚ))

/-- `ToNumber` on a string (the `Number(x)` coercion): trims, the empty
string is `0`, and the whole remainder must be a decimal literal; `none`
models `NaN`.  (Hex and exponent literals are not modelled.) -/
def jsToNumberChars (s : List Char) : Option ℚ :=
  let t := jsTrim s
  if t.isEmpty then some 0
  else
    let sg := splitSign t
    let ds := sg.2.takeWhile isDigitChar
    let r2 := sg.2.dropWhile isDigitChar
    if r2.isEmpty then
      if ds.isEmpty then none else some ((sg.1 : ℚ) * (digitsToNat ds : ℚ))
    else if r2.head? = some '.' then
      let fs := (r2.drop 1).takeWhile isDigitChar
      let r4 := (r2.drop 1).dropWhile isDigitChar
      if r4.isEmpty && !(ds.isEmpty && fs.isEmpty) then
        some ((sg.1 : ℚ) * ((digitsToNat ds : ℚ) + (digitsToNat fs : ℚ) / 10 ^ fs.length))
      else none
    else none

/-- `Number.prototype.toFixed(2)`.  Only non-negative arguments reach it in
the embedded code (`priceNum > 0` guards the call). -/
def toFixed2 (q : ℚ) : List Char :=
  let n := (q * 100 + 1 / 2).floor
  if n < 0 then
    '-' :: (natToChars ((-n).toNat / 100) ++
      '.' :: [digitChar ((-n).toNat % 100 / 10), digitChar ((-n).toNat % 100 % 10)])
  else
    natToChars (n.toNat / 100) ++
      '.' :: [digitChar (n.toNat % 100 / 10), digitChar (n.toNat % 100 % 10)]

/-! ## JavaScript values and records

A record (one product row, `Record<string, any>`) is an association list.
JS object keys are unique, so writing `obj[k] = v` while iterating a
snapshot of `Object.entries(obj)` is a pointwise update; accessing a missing
key yields `undefined`, modelled as `Option.none` at the access site.
-/

inductive JVal where
  | vstr (s : List Char)
  | vnum (n : Int)
  | vnull
  deriving DecidableEq

open JVal

/-- JS truthiness for the values that occur in records. -/
def truthy : JVal → Bool
  | vstr s => !s.isEmpty
  | vnum n => n != 0
  | vnull => false

/-- Truthiness of a field access (`undefined` is falsy). -/
def truthyO : Option JVal → Bool
  | none => false
  | some v => truthy v

/-- `String(v)` / `v.toString()` for record values. -/
def jvalToChars : JVal → List Char
  | vstr s => s
  | vnum n => intToChars n
  | vnull => 'n' :: 'u' :: 'l' :: ['l']

/-- `String(x)` where `x` may be `undefined`. -/
def jvalOptToChars : Option JVal → List Char
  | none => "undefined".toList
  | some v => jvalToChars v

/-- `ToNumber` (`Number(x)`): `null` is `0`, `undefined`/unparsable is `NaN`
(`none`). -/
def toNumberJ : JVal → Option ℚ
  | vstr s => jsToNumberChars s
  | vnum n => some (n : ℚ)
  | vnull => some 0

abbrev JRecord : Type := List (String × JVal)

/-- `data[k]`: `none` is `undefined`. -/
def jget (r : JRecord) (k : String) : Option JVal :=
  (r.find? (fun p => p.1 == k)).map Prod.snd

/-- `obj[k] = v` on a JS object: replaces the value of an existing key in
place, otherwise appends the new key. -/
def jset (r : JRecord) (k : String) (v : JVal) : JRecord :=
  if r.any (fun p => p.1 == k) then
    r.map (fun p => if p.1 == k then (k, v) else p)
  else r ++ [(k, v)]

/-- The JS expression `a || b` over two field accesses. -/
def jsOr (a b : Option JVal) : Option JVal := if truthyO a then a else b

/-- `data.k1 || data.k2`. -/
def jget2 (r : JRecord) (k1 k2 : String) : Option JVal :=
  jsOr (jget r k1) (jget r k2)

/-- `data.k1 || data.k2 || undefined` (the brand extraction in the source:
a falsy brand collapses to `undefined`). -/
def jgetBrand (r : JRecord) (k1 k2 : String) : Option JVal :=
  let v := jget2 r k1 k2
  if truthyO v then v else none

/-- `(data.k1 || data.k2 || '')` coerced to a string. -/
def jgetStr2 (r : JRecord) (k1 k2 : String) : List Char :=
  match jget2 r k1 k2 with
  | some v => if truthy v then jvalToChars v else []
  | none => []

/-! ## Lookup tables (`lookup_tables` rows) -/

structure LookupEntry where
  tableType : List Char
  sourceValue : List Char
  targetValue : List Char
  brand : Option (List Char)
  isActive : Bool
  deriving DecidableEq

/-- The `where` clause of the `findFirst` queries in `getColorMapping` /
`getSizeMapping`: table type, (trimmed) source value, brand scope, active. -/
def entryMatches (tableType src : List Char) (brand : Option (List Char))
    (e : LookupEntry) : Bool :=
  e.tableType == tableType && e.sourceValue == src && e.brand == brand && e.isActive

/-- `EnrichmentService.getColorMapping` / `getSizeMapping` (the two bodies
are identical up to the `tableType` constant).  `prisma.lookupTable.findFirst`
is modelled as the first matching element of the entry list; `brand`
truthiness (`if (brand)`) gates the brand-scoped query. -/
def getMapping (entries : List LookupEntry) (tableType : List Char)
    (name : List Char) (brand : Option (List Char)) : Option (List Char) :=
  if name.isEmpty || (jsTrim name).isEmpty then none
  else
    let norm := jsTrim name
    let branded : Option LookupEntry :=
      match brand with
      | some b =>
        if !b.isEmpty then entries.find? (entryMatches tableType norm (some b))
        else none
      | none => none
    match branded with
    | some e => some e.targetValue
    | none =>
      (entries.find? (entryMatches tableType norm none)).map LookupEntry.targetValue

def getColorMapping (entries : List LookupEntry) (name : List Char)
    (brand : Option (List Char)) : Option (List Char) :=
  getMapping entries "color_map".toList name brand

def getSizeMapping (entries : List LookupEntry) (name : List Char)
    (brand : Option (List Char)) : Option (List Char) :=
  getMapping entries "size_map".toList name brand

/-! ## Check digits -/

/-- The alternating weighted sum shared verbatim by
`EnrichmentService.calculateCheckDigit` and
`ValidationEngine.validateBarcodeCheckDigit`: the input is the digit values
right-to-left, position 0 (the digit immediately left of the check digit)
weighted 3, odd positions weighted 1. -/
def altWeightedSum : Bool → List Nat → Nat
  | _, [] => 0
  | mult3, d :: rest => (if mult3 then 3 * d else d) + altWeightedSum (!mult3) rest

/-- `EnrichmentService.calculateCheckDigit`: the check digit (as a string)
of the leading 11 (UPC) or 12 (EAN) digits. -/
def calculateCheckDigit (digits : List Char) : List Char :=
  let sum := altWeightedSum true ((digits.map digitVal).reverse)
  natToChars ((10 - sum % 10) % 10)

/-- `ValidationEngine.validateBarcodeCheckDigit`: trims, requires exactly
12 or 13 digits, recomputes the weighted sum of the leading digits and
compares with the final digit. -/
def validateBarcodeCheckDigit (barcode : List Char) : Bool :=
  let clean := jsTrim barcode
  if !((clean.length == 12 || clean.length == 13) && clean.all isDigitChar) then
    false
  else
    let checkDigit := digitVal (clean.getLastD '0')
    let digits := clean.dropLast
    let sum := altWeightedSum true ((digits.map digitVal).reverse)
    let expected := (10 - sum % 10) % 10
    checkDigit == expected

/-! ## Auto-fix engine (`EnrichmentService.applyAutoFix`)

The source builds `fixedData = { ...data }` and mutates it through six
sequential passes, pushing an `AutoFix` per applied change.  Each pass is a
function `JRecord × List AutoFix → JRecord × List AutoFix` below, composed in
source order.
-/

inductive FixType where
  | whitespace
  | formatting
  | check_digit
  | mapping
  deriving DecidableEq

structure AutoFix where
  field : String
  originalValue : JVal
  fixedValue : JVal
  fixType : FixType
  description : List Char
  deriving DecidableEq

/-- Pass 1: for every string field with leading/trailing whitespace, trim and
collapse internal whitespace.  The JS loop iterates a snapshot of
`Object.entries(fixedData)` and assigns each field back to its own (unique)
key, i.e. a pointwise map. -/
def autoFixWs (data : JRecord) : JRecord × List AutoFix :=
  (data.map (fun p =>
      match p.2 with
      | vstr s => if s != jsTrim s then (p.1, vstr (jsWsFix s)) else p
      | _ => p),
   data.filterMap (fun p =>
      match p.2 with
      | vstr s =>
        if s != jsTrim s then
          if s != jsWsFix s then
            some ⟨p.1, vstr s, vstr (jsWsFix s), FixType.whitespace,
              "Removed leading/trailing whitespace and normalized spaces".toList⟩
          else none
        else none
      | _ => none))

/-- `slice(-1)` on a string. -/
def lastStr (s : List Char) : List Char := s.drop (s.length - 1)

/-- Pass 2: if the digit-only projection of `external_product_id` is 12 or 13
digits with a wrong check digit, replace the value by the digits with the
recomputed check digit. -/
def autoFixCheckDigit (st : JRecord × List AutoFix) : JRecord × List AutoFix :=
  let r := st.1
  match jget r "external_product_id" with
  | some (vstr s) =>
    if !s.isEmpty then
      let digits := digitsOnly s
      if digits.length == 12 || digits.length == 13 then
        let calcd := calculateCheckDigit digits.dropLast
        let curr := lastStr digits
        if calcd != curr then
          let fv := digits.dropLast ++ calcd
          (jset r "external_product_id" (vstr fv),
           st.2 ++ [⟨"external_product_id", vstr s, vstr fv, FixType.check_digit,
             "Corrected check digit from ".toList ++ curr ++ " to ".toList ++ calcd⟩])
        else st
      else st
    else st
  | _ => st

/-- Passes 3 and 4 share this shape: apply a lookup mapping to `targetField`
when `srcField1 || srcField2` is truthy and the target is falsy, and the
lookup result is itself truthy (the source's `if (colorMapping)` /
`if (sizeMapping)` guard: `null` and the empty string are both skipped).
The recorded `originalValue` is the literal `null` of the source. -/
def autoFixMapping (entries : List LookupEntry) (tableType : List Char)
    (srcField1 srcField2 targetField : String) (descr : List Char)
    (st : JRecord × List AutoFix) : JRecord × List AutoFix :=
  let r := st.1
  let brand := jgetBrand r "brand_name" "brand"
  let name := jget2 r srcField1 srcField2
  if truthyO name && !truthyO (jget r targetField) then
    match getMapping entries tableType (jvalOptToChars name) (brand.map jvalToChars) with
    | some t =>
      if !t.isEmpty then
        (jset r targetField (vstr t),
         st.2 ++ [⟨targetField, vnull, vstr t, FixType.mapping, descr⟩])
      else st
    | none => st
  else st

def autoFixColor (entries : List LookupEntry) (st : JRecord × List AutoFix) :
    JRecord × List AutoFix :=
  autoFixMapping entries "color_map".toList "color_name" "color" "color_map"
    "Applied color mapping from lookup table".toList st

def autoFixSize (entries : List LookupEntry) (st : JRecord × List AutoFix) :
    JRecord × List AutoFix :=
  autoFixMapping entries "size_map".toList "size_name" "size" "size_map"
    "Applied size mapping from lookup table".toList st

/-- `item_sku.trim().toUpperCase().replace(/\s+/g, '')`. -/
def normalizeSku (s : List Char) : List Char := jsStripWs (jsToUpper (jsTrim s))

/-- Pass 5: normalize `item_sku`. -/
def autoFixItemSku (st : JRecord × List AutoFix) : JRecord × List AutoFix :=
  let r := st.1
  match jget r "item_sku" with
  | some (vstr s) =>
    if !s.isEmpty then
      let fixed := normalizeSku s
      if s != fixed then
        (jset r "item_sku" (vstr fixed),
         st.2 ++ [⟨"item_sku", vstr s, vstr fixed, FixType.formatting,
           "Normalized SKU format (uppercase, no spaces)".toList⟩])
      else st
    else st
  | _ => st

/-- Pass 6: format a truthy, positive, parsable `standard_price` with two
decimals. -/
def autoFixPrice (st : JRecord × List AutoFix) : JRecord × List AutoFix :=
  let r := st.1
  let o := jget r "standard_price"
  if truthyO o then
    let pv := match o with | some v => v | none => vnull
    let priceStr := jsTrim (jvalToChars pv)
    match parseFloatJs priceStr with
    | some q =>
      if q > 0 then
        let formatted := toFixed2 q
        if priceStr != formatted then
          (jset r "standard_price" (vstr formatted),
           st.2 ++ [⟨"standard_price", pv, vstr formatted, FixType.formatting,
             "Formatted price to 2 decimal places".toList⟩])
        else st
      else st
    | none => st
  else st

/-- Pass 7: format a non-`null`, non-negative, parsable `quantity` as an
integer string. -/
def autoFixQuantity (st : JRecord × List AutoFix) : JRecord × List AutoFix :=
  let r := st.1
  match jget r "quantity" with
  | none => st
  | some vnull => st
  | some v =>
    let qs := jsTrim (jvalToChars v)
    match parseIntJs qs with
    | some n =>
      if n ≥ 0 then
        let formatted := intToChars n
        if qs != formatted then
          (jset r "quantity" (vstr formatted),
           st.2 ++ [⟨"quantity", v, vstr formatted, FixType.formatting,
             "Formatted quantity as integer".toList⟩])
        else st
      else st
    | none => st

/-- `EnrichmentService.applyAutoFix`: the six passes in source order,
returning `(fixedData, fixes)`. -/
def applyAutoFix (entries : List LookupEntry) (data : JRecord) :
    JRecord × List AutoFix :=
  autoFixQuantity (autoFixPrice (autoFixItemSku (autoFixSize entries
    (autoFixColor entries (autoFixCheckDigit (autoFixWs data))))))

/-! ## Validation rules and issues -/

inductive Severity where
  | error
  | warning
  | info
  deriving DecidableEq

inductive RuleType where
  | required
  | max_length
  | regex
  | range
  | lookup
  | custom
  deriving DecidableEq

/-- The `ruleConfig` parameters read by `applyRule`.  `max` and `min` keep
the raw JS value (`as number` casts do not convert, so a malformed entry can
be any value, `none` being `undefined`). -/
structure RuleConfig where
  max : Option JVal
  min : Option JVal
  pattern : Option (List Char)
  table_type : Option (List Char)
  values : Option (List (List Char))
  function : Option (List Char)
  maxThreshold : Option ℚ
  deriving DecidableEq

def emptyConfig : RuleConfig := ⟨none, none, none, none, none, none, none⟩

structure ValidationRule where
  id : String
  fieldName : String
  ruleType : RuleType
  ruleConfig : RuleConfig
  severity : Severity
  message : List Char
  isActive : Bool
  sortOrder : Int
  deriving DecidableEq

structure ValidationIssue where
  field : String
  rule : String
  severity : Severity
  message : List Char
  deriving DecidableEq

inductive RowStatus where
  | pending
  | pass
  | warning
  | error
  deriving DecidableEq

structure UploadRow where
  id : String
  rowNumber : Nat
  originalData : JRecord
  enrichedData : Option JRecord
  status : RowStatus

/-- `row.enrichedData || row.originalData` (any present object is truthy). -/
def rowData (row : UploadRow) : JRecord := row.enrichedData.getD row.originalData

/-- `ValidationEngine.isFieldPresent`. -/
def isFieldPresent : Option JVal → Bool
  | none => false
  | some vnull => false
  | some (vstr s) => !(jsTrim s).isEmpty
  | some (vnum _) => true

/-! ## Field validators -/

/-- `ValidationEngine.validateBarcodeType`. -/
def validateBarcodeType (t : List Char) : Bool :=
  if t.isEmpty then false
  else
    let n := jsToUpper (jsTrim t)
    n == "UPC".toList || n == "EAN".toList

/-- `ValidationEngine.validateBrand` over the loaded active brand names. -/
def validateBrand (brandNames : List (List Char)) (b : List Char) : Bool :=
  if b.isEmpty then false else brandNames.contains (jsTrim b)

/-- The target-value sets built by `loadLookupTables` (active entries grouped
by table type). -/
def lookupTargets (entries : List LookupEntry) (t : List Char) : List (List Char) :=
  entries.filterMap (fun e =>
    if e.isActive && e.tableType == t then some e.targetValue else none)

/-- `ValidationEngine.validateLookupValue`: an absent table (no active
entries of that type) fails the check. -/
def validateLookupValue (entries : List LookupEntry) (v t : List Char) : Bool :=
  if v.isEmpty then false
  else
    let set := lookupTargets entries t
    if set.isEmpty then false else set.contains (jsTrim v)

/-- `ValidationEngine.validateEnum` (case-insensitive membership). -/
def validateEnum (v : List Char) (allowed : List (List Char)) : Bool :=
  if v.isEmpty then false
  else
    let n := jsToUpper (jsTrim v)
    allowed.any (fun a => jsToUpper a == n)

/-- One position matches `/<\/?[a-zA-Z][a-zA-Z0-9]*[^>]*>/`: after `<`, an
optional `/`, a letter, the pattern `[a-zA-Z0-9]*[^>]*>` matches some prefix
of the remainder iff a `>` occurs in it. -/
def startsHtmlTag : List Char → Bool
  | '<' :: rest =>
    let r1 := match rest with
      | '/' :: r => r
      | r => r
    match r1 with
    | c :: r2 => isAlphaChar c && r2.contains '>'
    | [] => false
  | _ => false

def hasHtmlTag (s : List Char) : Bool := s.tails.any startsHtmlTag

/-- `ValidationEngine.validateDescription`: `(isValid, issues)`. -/
def validateDescription (d : List Char) : Bool × List (List Char) :=
  if d.isEmpty || (jsTrim d).isEmpty then
    (false, ["Description is required".toList])
  else
    let t := jsTrim d
    let issues :=
      (if t.length > 2000 then ["Description must not exceed 2000 characters".toList] else [])
      ++ (if hasHtmlTag t then ["Description must not contain HTML tags".toList] else [])
    (issues.isEmpty, issues)

/-- `ValidationEngine.validateDescriptionQuality`. -/
def validateDescriptionQuality (d : List Char) : Bool :=
  if d.isEmpty || (jsTrim d).isEmpty then false else (jsTrim d).length ≥ 100

def bulletKeys : List String :=
  ["bullet_point1", "bullet_point2", "bullet_point3", "bullet_point4", "bullet_point5"]

/-- Per-bullet checks of `validateBulletPoints` for one key. -/
def bulletIssues (data : JRecord) (k : String) : List (List Char) :=
  match jget data k with
  | some v =>
    if truthy v && !(jsTrim (jvalToChars v)).isEmpty then
      let t := jsTrim (jvalToChars v)
      (if t.length > 500 then [k.toList ++ " must not exceed 500 characters".toList] else [])
      ++ (if hasHtmlTag t then [k.toList ++ " must not contain HTML tags".toList] else [])
    else []
  | none => []

/-- `ValidationEngine.validateBulletPoints`: `(isValid, issues)`. -/
def validateBulletPoints (data : JRecord) : Bool × List (List Char) :=
  let b1 := jget data "bullet_point1"
  if !truthyO b1 || (jsTrim (jvalOptToChars b1)).isEmpty then
    (false, ["At least bullet_point1 is required".toList])
  else
    let issues := bulletKeys.foldl (fun acc k => acc ++ bulletIssues data k) []
    (issues.isEmpty, issues)

/-- `ValidationEngine.validateBulletPointQuality`. -/
def validateBulletPointQuality (b : List Char) : Bool :=
  if b.isEmpty || (jsTrim b).isEmpty then true else (jsTrim b).length ≥ 15

/-- `ValidationEngine.validateURL`.  Models `new URL(url.trim())` plus the
http/https protocol check by the common absolute forms (a scheme followed by
`//` and a non-empty remainder); no claim exercises URL rules. -/
def validateURL (u : List Char) : Bool :=
  if u.isEmpty || (jsTrim u).isEmpty then false
  else
    let l := jsToLower (jsTrim u)
    ("http://".toList.isPrefixOf l && decide (l.length > 7))
    || ("https://".toList.isPrefixOf l && decide (l.length > 8))

/-- `ValidationEngine.validatePrice`. -/
def validatePrice (o : Option JVal) : Bool :=
  match o with
  | none => false
  | some vnull => false
  | some (vstr []) => false
  | some v =>
    match toNumberJ v with
    | none => false
    | some q => decide (q > 0)

/-- `ValidationEngine.validateQuantity`. -/
def validateQuantity (o : Option JVal) : Bool :=
  match o with
  | none => false
  | some vnull => false
  | some (vstr []) => false
  | some v =>
    match toNumberJ v with
    | none => false
    | some q => if q < 0 then false else q.den == 1

/-- `ValidationEngine.validatePriceReasonableness` (default threshold
10000 applies when the config omits it). -/
def validatePriceReasonableness (o : Option JVal) (maxThreshold : ℚ) : Bool :=
  match o with
  | none => true
  | some vnull => true
  | some (vstr []) => true
  | some v =>
    match toNumberJ v with
    | none => true
    | some q => decide (q > 0) && decide (q ≤ maxThreshold)

def punctChars : List Char := ['!', '?', '.', ',', ';', ':']

def isPunctChar (c : Char) : Bool := punctChars.contains c

/-- `/[!?.,;:]{2,}/` — two consecutive punctuation marks occur. -/
def hasConsecPunct : List Char → Bool
  | a :: b :: r => (isPunctChar a && isPunctChar b) || hasConsecPunct (b :: r)
  | _ => false

def excessivePunctMsg : List Char := "Title contains excessive punctuation".toList

/-- One missing-component check of `validateTitleQuality`. -/
def titleMissingIssue (lowerTitle : List Char) (o : Option JVal) (msg : List Char) :
    List (List Char) :=
  match o with
  | some v =>
    if truthy v && !(jsTrim (jvalToChars v)).isEmpty then
      if !listContains lowerTitle (jsToLower (jsTrim (jvalToChars v))) then [msg] else []
    else []
  | none => []

/-- `ValidationEngine.validateTitleQuality`: `(isValid, issues)`. -/
def validateTitleQuality (title : List Char) (data : JRecord) :
    Bool × List (List Char) :=
  if title.isEmpty || (jsTrim title).isEmpty then (true, [])
  else
    let t := jsTrim title
    let lowerTitle := jsToLower t
    let missing :=
      titleMissingIssue lowerTitle (jget data "brand_name")
        "Title is missing brand name".toList
      ++ titleMissingIssue lowerTitle (jget2 data "color_name" "color_map")
        "Title is missing color".toList
      ++ titleMissingIssue lowerTitle (jget2 data "size_name" "size_map")
        "Title is missing size".toList
      ++ titleMissingIssue lowerTitle (jget2 data "material" "material_type")
        "Title is missing material".toList
    let lettersOnly := t.filter isAlphaChar
    let upperIssue :=
      if !lettersOnly.isEmpty && lettersOnly == jsToUpper lettersOnly then
        ["Title contains all uppercase letters".toList]
      else []
    let p1 := if (t.filter isPunctChar).length > 3 then [excessivePunctMsg] else []
    let p2 := if hasConsecPunct t then [excessivePunctMsg] else []
    let issues := missing ++ upperIssue ++ p1 ++ p2
    (issues.isEmpty, issues)

/-! ## Rule dispatch (`ValidationEngine.applyRule`) -/

/-- The engine state loaded once per run, plus the ambient JS regex engine:
`regexCompile p = none` models `new RegExp(p)` throwing a `SyntaxError`,
`some test` gives `RegExp.prototype.test`. -/
structure EngineCtx where
  rules : List ValidationRule
  brandNames : List (List Char)
  entries : List LookupEntry
  regexCompile : List Char → Option (List Char → Bool)

def mkIssue (rule : ValidationRule) (msg : List Char) : ValidationIssue :=
  ⟨rule.fieldName, rule.id, rule.severity, msg⟩

/-- The JS comparison `q > o` for a number against an arbitrary config value
(the non-number side goes through `ToNumber`; `NaN` compares false,
`undefined` is excluded by the caller or yields false). -/
def jsGtNum (q : ℚ) (o : Option JVal) : Bool :=
  match o with
  | none => false
  | some v =>
    match toNumberJ v with
    | none => false
    | some m => decide (q > m)

/-- `o !== undefined && q < o` with JS coercion. -/
def jsLtNum (q : ℚ) (o : Option JVal) : Bool :=
  match o with
  | none => false
  | some v =>
    match toNumberJ v with
    | none => false
    | some m => decide (q < m)

/-- `ValidationEngine.applyRule`.  A `.error` result models an exception
escaping `applyRule` (the only source of one is `new RegExp` on an invalid
pattern); the source has no handler around it. -/
def applyRule (ctx : EngineCtx) (rule : ValidationRule) (row : UploadRow) :
    Except Unit (List ValidationIssue) :=
  let data := rowData row
  let fv := jget data rule.fieldName
  match rule.ruleType with
  | RuleType.required =>
    Except.ok (if !isFieldPresent fv then [mkIssue rule rule.message] else [])
  | RuleType.max_length =>
    Except.ok (
      if isFieldPresent fv then
        if jsGtNum ((jvalOptToChars fv).length : ℚ) rule.ruleConfig.max then
          [mkIssue rule (replaceFirst rule.message "{max}".toList
            (jvalOptToChars rule.ruleConfig.max))]
        else []
      else [])
  | RuleType.regex =>
    if isFieldPresent fv then
      match rule.ruleConfig.pattern with
      | none => Except.ok []
      | some p =>
        match ctx.regexCompile p with
        | none => Except.error ()
        | some test =>
          Except.ok (if !test (jvalOptToChars fv) then [mkIssue rule rule.message] else [])
    else Except.ok []
  | RuleType.range =>
    Except.ok (
      if isFieldPresent fv then
        match fv with
        | some v =>
          match toNumberJ v with
          | none => []
          | some q =>
            (if jsLtNum q rule.ruleConfig.min then
              [mkIssue rule (replaceFirst rule.message "{min}".toList
                (jvalOptToChars rule.ruleConfig.min))]
             else [])
            ++ (if jsGtNum q rule.ruleConfig.max then
              [mkIssue rule (replaceFirst rule.message "{max}".toList
                (jvalOptToChars rule.ruleConfig.max))]
             else [])
        | none => []
      else [])
  | RuleType.lookup =>
    Except.ok (
      if isFieldPresent fv then
        let sv := jvalOptToChars fv
        if rule.fieldName == "brand_name" then
          if !validateBrand ctx.brandNames sv then [mkIssue rule rule.message] else []
        else
          match rule.ruleConfig.table_type with
          | some tt =>
            if !validateLookupValue ctx.entries sv tt then [mkIssue rule rule.message] else []
          | none =>
            match rule.ruleConfig.values with
            | some vs =>
              if !validateEnum sv vs then [mkIssue rule rule.message] else []
            | none => []
      else [])
  | RuleType.custom =>
    match rule.ruleConfig.function with
    | none => Except.ok []
    | some fn =>
      if fn == "validateBulletPoints".toList then
        Except.ok (
          let res := validateBulletPoints data
          if !res.1 then res.2.map (fun m => mkIssue rule m) else [])
      else if isFieldPresent fv then
        let sv := jvalOptToChars fv
        if fn == "validateUPCCheckDigit".toList || fn == "validateBarcodeCheckDigit".toList then
          Except.ok (if !validateBarcodeCheckDigit sv then [mkIssue rule rule.message] else [])
        else if fn == "validateBarcodeType".toList then
          Except.ok (if !validateBarcodeType sv then [mkIssue rule rule.message] else [])
        else if fn == "validateDescription".toList then
          Except.ok (
            let res := validateDescription sv
            if !res.1 then res.2.map (fun m => mkIssue rule m) else [])
        else if fn == "validateDescriptionQuality".toList then
          Except.ok (if !validateDescriptionQuality sv then [mkIssue rule rule.message] else [])
        else if fn == "validateBulletPointQuality".toList then
          Except.ok (if !validateBulletPointQuality sv then [mkIssue rule rule.message] else [])
        else if fn == "validateURL".toList then
          Except.ok (if !validateURL sv then [mkIssue rule rule.message] else [])
        else if fn == "validatePrice".toList then
          Except.ok (if !validatePrice fv then [mkIssue rule rule.message] else [])
        else if fn == "validateQuantity".toList then
          Except.ok (if !validateQuantity fv then [mkIssue rule rule.message] else [])
        else if fn == "validatePriceReasonableness".toList then
          Except.ok (
            if !validatePriceReasonableness fv (rule.ruleConfig.maxThreshold.getD 10000) then
              [mkIssue rule rule.message]
            else [])
        else if fn == "validateTitleQuality".toList then
          Except.ok (
            let res := validateTitleQuality sv data
            if !res.1 then res.2.map (fun m => mkIssue rule m) else [])
        else Except.ok []
      else Except.ok []

/-! ## Cross-record pass (`validateParentChildRelationships`) -/

/-- `Map.prototype.get` on an insertion-ordered association list. -/
def amapGet {κ α : Type} [BEq κ] (m : List (κ × α)) (k : κ) : Option α :=
  (m.find? (fun p => p.1 == k)).map Prod.snd

/-- `Map.prototype.set`: updates an existing key in place, else appends. -/
def amapSet {κ α : Type} [BEq κ] (m : List (κ × α)) (k : κ) (v : α) : List (κ × α) :=
  if m.any (fun p => p.1 == k) then
    m.map (fun p => if p.1 == k then (k, v) else p)
  else m ++ [(k, v)]

def themeMismatchMsg (childTheme parentTheme : List Char) : List Char :=
  "Child variation_theme (".toList ++ childTheme ++
  ") does not match parent variation_theme (".toList ++ parentTheme ++ ")".toList

def childMissingParentMsg : List Char := "Child items must have a parent_sku".toList

def orphanChildMsg (psv : List Char) : List Char :=
  "Child SKU references non-existent parent SKU: ".toList ++ psv

/-- First loop of `validateParentChildRelationships`: the `sku → row` map
(`Map.set`, last row with a SKU wins) and the set of parent SKUs. -/
def buildSkuIndex (rows : List UploadRow) :
    List (List Char × UploadRow) × List (List Char) :=
  rows.foldl (fun acc row =>
    let data := rowData row
    let itemSku := jget data "item_sku"
    if truthyO itemSku then
      let key := jsTrim (jvalOptToChars itemSku)
      let m := amapSet acc.1 key row
      let parentChild := jget data "parent_child"
      if truthyO parentChild &&
          jsToLower (jsTrim (jvalOptToChars parentChild)) == "parent".toList then
        (m, acc.2 ++ [key])
      else (m, acc.2)
    else acc) ([], [])

/-- The child-row branch: the issue list built for one `"child"` row. -/
def childRowIssues (skuToRow : List (List Char × UploadRow))
    (parentSkus : List (List Char)) (row : UploadRow) : List ValidationIssue :=
  let data := rowData row
  let parentSku := jget data "parent_sku"
  let variationTheme := jget data "variation_theme"
  if !truthyO parentSku || (jsTrim (jvalOptToChars parentSku)).isEmpty then
    [⟨"parent_sku", "parent_child_referential_integrity", Severity.error,
      childMissingParentMsg⟩]
  else
    let psv := jsTrim (jvalOptToChars parentSku)
    if !parentSkus.contains psv then
      [⟨"parent_sku", "parent_child_referential_integrity", Severity.error,
        orphanChildMsg psv⟩]
    else
      match amapGet skuToRow psv with
      | some parentRow =>
        let parentData := rowData parentRow
        let pvt := jget parentData "variation_theme"
        if truthyO variationTheme && truthyO pvt then
          let childTheme := jsTrim (jvalOptToChars variationTheme)
          let parentTheme := jsTrim (jvalOptToChars pvt)
          if childTheme != parentTheme then
            [⟨"variation_theme", "variation_theme_consistency", Severity.error,
              themeMismatchMsg childTheme parentTheme⟩]
          else []
        else []
      | none => []

/-- The parent-row branch: appends a mismatch issue to each differing child
(`issuesByRowId.get(child.id) || []` then `set`). -/
def parentRowIssues (rows : List UploadRow) (row : UploadRow)
    (m : List (String × List ValidationIssue)) :
    List (String × List ValidationIssue) :=
  let data := rowData row
  let itemSku := jget data "item_sku"
  let variationTheme := jget data "variation_theme"
  let children := rows.filter (fun r2 =>
    let cd := rowData r2
    let cps := jget cd "parent_sku"
    let cpc := jget cd "parent_child"
    truthyO cps &&
    jsTrim (jvalOptToChars cps) == jsTrim (jvalOptToChars itemSku) &&
    truthyO cpc &&
    jsToLower (jsTrim (jvalOptToChars cpc)) == "child".toList)
  if !children.isEmpty && truthyO variationTheme then
    let parentTheme := jsTrim (jvalOptToChars variationTheme)
    children.foldl (fun acc child =>
      let cd := rowData child
      let cvt := jget cd "variation_theme"
      if truthyO cvt then
        let childTheme := jsTrim (jvalOptToChars cvt)
        if childTheme != parentTheme then
          amapSet acc child.id ((amapGet acc child.id).getD [] ++
            [⟨"variation_theme", "variation_theme_consistency", Severity.error,
              themeMismatchMsg childTheme parentTheme⟩])
        else acc
      else acc) m
  else m

/-- `ValidationEngine.validateParentChildRelationships`: issues keyed by row
id.  Note the child branch **sets** (overwrites) the entry for its own row,
while the parent branch appends to whatever entry a child row already has. -/
def validateParentChildRelationships (rows : List UploadRow) :
    List (String × List ValidationIssue) :=
  let idx := buildSkuIndex rows
  rows.foldl (fun m row =>
    let data := rowData row
    let parentChild := jget data "parent_child"
    if !truthyO parentChild then m
    else
      let pcv := jsToLower (jsTrim (jvalOptToChars parentChild))
      let afterChild :=
        if pcv == "child".toList then
          let issues := childRowIssues idx.1 idx.2 row
          if !issues.isEmpty then amapSet m row.id issues else m
        else m
      if pcv == "parent".toList then parentRowIssues rows row afterChild
      else afterChild) []

/-! ## Enrichment inference (`EnrichmentService`) -/

inductive Confidence where
  | high
  | medium
  | low
  deriving DecidableEq

structure EnrichmentSuggestion where
  field : String
  suggestedValue : List Char
  confidence : Confidence
  reason : List Char
  deriving DecidableEq

def RECOMMENDED_OPTIONAL_FIELDS : List String :=
  ["bullet_point2", "bullet_point3", "bullet_point4", "bullet_point5",
   "other_image_url1", "other_image_url2", "material_type", "fabric_type",
   "care_instructions", "country_of_origin", "manufacturer"]

/-- `EnrichmentService.getOptionalFieldSuggestions`: an info-level nudge for
each recommended field that is `undefined`, `null` or `''`. -/
def getOptionalFieldSuggestions (data : JRecord) : List EnrichmentSuggestion :=
  RECOMMENDED_OPTIONAL_FIELDS.filterMap (fun f =>
    let isEmpty :=
      match jget data f with
      | none => true
      | some vnull => true
      | some (vstr []) => true
      | some _ => false
    if isEmpty then
      some ⟨f, [], Confidence.low,
        "Recommended optional field \"".toList ++ f.toList ++
        "\" is missing. Adding this field can improve listing quality.".toList⟩
    else none)

def anyContains (text : List Char) (kws : List String) : Bool :=
  kws.any (fun k => listContains text k.toList)

def kidsIndicatorWords : List String := ["kids", "child", "children", "youth", "junior"]

def kidsNumericSizes : List String :=
  ["2t", "3t", "4t", "5t", "6", "7", "8", "10", "12", "14", "16"]

/-- ASCII apostrophe (kept out of source literals). -/
def apos : Char := Char.ofNat 39

def womensIndicatorWords : List (List Char) :=
  ["women".toList, "womens".toList, "women".toList ++ apos :: "s".toList,
   "ladies".toList, "female".toList]

def mensIndicatorWords : List (List Char) :=
  ["men".toList, "mens".toList, "men".toList ++ apos :: "s".toList,
   "male".toList, "gentleman".toList]

/-- `EnrichmentService.inferDepartment`. -/
def inferDepartment (data : JRecord) : Option (List Char) :=
  let clothingType := jsTrim (jsToLower (jgetStr2 data "clothing_type" "garment_type"))
  let sizeName := jsTrim (jsToLower (jgetStr2 data "size_name" "size"))
  let itemName := jsTrim (jsToLower (jgetStr2 data "item_name" "title"))
  let description := jsTrim (jsToLower (jgetStr2 data "product_description" "description"))
  let allText := jsToLower (clothingType ++ ' ' :: sizeName ++ ' ' :: itemName
    ++ ' ' :: description)
  let hasKidsSize := kidsNumericSizes.any (fun z => listContains sizeName z.toList)
  if anyContains allText ["unisex", "gender neutral", "all gender"] then
    if anyContains allText kidsIndicatorWords || hasKidsSize then
      some "unisex-child".toList
    else some "unisex-adult".toList
  else if anyContains allText ["baby", "infant", "newborn", "onesie", "bodysuit", "romper"] then
    let g := anyContains allText ["girl", "girls", "pink", "princess", "dress"]
    let b := anyContains allText ["boy", "boys", "blue"]
    if g && !b then some "baby-girls".toList
    else if b && !g then some "baby-boys".toList
    else some "baby-girls".toList
  else if anyContains allText kidsIndicatorWords || hasKidsSize then
    let g := anyContains allText ["girl", "girls", "pink", "princess", "dress", "skirt"]
    let b := anyContains allText ["boy", "boys"]
    if g && !b then some "girls".toList
    else if b && !g then some "boys".toList
    else some "girls".toList
  else
    let hasW := womensIndicatorWords.any (fun w => listContains allText w)
    let hasM := mensIndicatorWords.any (fun w => listContains allText w)
    let hasWC := anyContains clothingType ["dress", "blouse", "skirt", "leggings", "tunic"]
    let hasMC := anyContains clothingType ["suit", "tie", "tuxedo"]
    if hasM && !hasW then some "mens".toList
    else if hasW && !hasM then some "womens".toList
    else if hasMC && !hasWC then some "mens".toList
    else if hasWC && !hasMC then some "womens".toList
    else if !clothingType.isEmpty then some "womens".toList
    else none

/-- The clothing-type → item-type keyword table, in source (insertion)
order. -/
def itemTypeMap : List (String × List String) :=
  [("shirt", ["shirts", "tops"]),
   ("blouse", ["blouses", "tops"]),
   ("t-shirt", ["t-shirts", "tops"]),
   ("tee", ["t-shirts", "tops"]),
   ("tank", ["tank-tops", "tops"]),
   ("sweater", ["sweaters", "tops"]),
   ("cardigan", ["cardigans", "sweaters", "tops"]),
   ("hoodie", ["hoodies", "sweatshirts", "tops"]),
   ("sweatshirt", ["sweatshirts", "tops"]),
   ("polo", ["polo-shirts", "shirts", "tops"]),
   ("tunic", ["tunics", "tops"]),
   ("pants", ["pants", "bottoms"]),
   ("jeans", ["jeans", "pants", "bottoms"]),
   ("trousers", ["trousers", "pants", "bottoms"]),
   ("shorts", ["shorts", "bottoms"]),
   ("skirt", ["skirts", "bottoms"]),
   ("leggings", ["leggings", "pants", "bottoms"]),
   ("dress", ["dresses"]),
   ("gown", ["gowns", "dresses"]),
   ("jacket", ["jackets", "outerwear"]),
   ("coat", ["coats", "outerwear"]),
   ("blazer", ["blazers", "jackets", "outerwear"]),
   ("vest", ["vests", "outerwear"]),
   ("parka", ["parkas", "coats", "outerwear"]),
   ("athletic", ["activewear", "athletic-apparel"]),
   ("sports", ["activewear", "athletic-apparel"]),
   ("yoga", ["yoga-apparel", "activewear"]),
   ("running", ["running-apparel", "activewear"]),
   ("pajama", ["pajamas", "sleepwear"]),
   ("nightgown", ["nightgowns", "sleepwear"]),
   ("robe", ["robes", "sleepwear"]),
   ("underwear", ["underwear"]),
   ("bra", ["bras", "underwear"]),
   ("panties", ["panties", "underwear"]),
   ("boxers", ["boxers", "underwear"]),
   ("briefs", ["briefs", "underwear"]),
   ("swimsuit", ["swimwear", "swimsuits"]),
   ("bikini", ["bikinis", "swimwear"]),
   ("swim", ["swimwear"]),
   ("scarf", ["scarves", "accessories"]),
   ("hat", ["hats", "accessories"]),
   ("gloves", ["gloves", "accessories"]),
   ("belt", ["belts", "accessories"]),
   ("tie", ["ties", "accessories"]),
   ("suit", ["suits"]),
   ("tuxedo", ["tuxedos", "suits"])]

/-- `EnrichmentService.inferItemType`. -/
def inferItemType (data : JRecord) : Option (List (List Char)) :=
  let clothingType := jsTrim (jsToLower (jgetStr2 data "clothing_type" "garment_type"))
  let itemName := jsTrim (jsToLower (jgetStr2 data "item_name" "title"))
  let description := jsTrim (jsToLower (jgetStr2 data "product_description" "description"))
  if clothingType.isEmpty && itemName.isEmpty then none
  else
    let allText := jsToLower (clothingType ++ ' ' :: itemName ++ ' ' :: description)
    let keywords := itemTypeMap.foldl (fun acc p =>
      if listContains clothingType p.1.toList || listContains allText p.1.toList then
        acc ++ p.2.map String.toList
      else acc) []
    let uniq := keywords.foldl (fun acc x =>
      if acc.contains x then acc else acc ++ [x]) []
    if uniq.isEmpty then none else some uniq

/-- `EnrichmentService.getEnrichmentSuggestions` over the active lookup
entries. -/
def getEnrichmentSuggestions (entries : List LookupEntry) (data : JRecord) :
    List EnrichmentSuggestion :=
  let brand := jgetBrand data "brand_name" "brand"
  let colorName := jget2 data "color_name" "color"
  let s1 :=
    if truthyO colorName && !truthyO (jget data "color_map") then
      match getColorMapping entries (jvalOptToChars colorName) (brand.map jvalToChars) with
      | some m => [(⟨"color_map", m, Confidence.high,
          "Mapped from color_name \"".toList ++ jvalOptToChars colorName ++
          "\" using lookup table".toList⟩ : EnrichmentSuggestion)]
      | none => []
    else []
  let sizeName := jget2 data "size_name" "size"
  let s2 :=
    if truthyO sizeName && !truthyO (jget data "size_map") then
      match getSizeMapping entries (jvalOptToChars sizeName) (brand.map jvalToChars) with
      | some m => [(⟨"size_map", m, Confidence.high,
          "Mapped from size_name \"".toList ++ jvalOptToChars sizeName ++
          "\" using lookup table".toList⟩ : EnrichmentSuggestion)]
      | none => []
    else []
  let s3 :=
    if !truthyO (jget data "department_name") then
      match inferDepartment data with
      | some d => [(⟨"department_name", d, Confidence.medium,
          "Inferred from product attributes".toList⟩ : EnrichmentSuggestion)]
      | none => []
    else []
  let s4 :=
    if !truthyO (jget data "item_type") then
      match inferItemType data with
      | some (k :: _) => [(⟨"item_type", k, Confidence.medium,
          "Inferred from clothing_type \"".toList ++
          jgetStr2 data "clothing_type" "garment_type" ++ "\"".toList⟩ :
          EnrichmentSuggestion)]
      | _ => []
    else []
  s1 ++ s2 ++ s3 ++ s4 ++ getOptionalFieldSuggestions data

/-! ## Run orchestration (`ValidationEngine.validate`) -/

structure RunResult where
  rowResults : List (String × List ValidationIssue × RowStatus)
  totalRows : Nat
  passCount : Nat
  errorCount : Nat
  warningCount : Nat
  healthScore : ℚ

/-- The per-row issue list of the first pass: all rules in order, then the
enrichment suggestions demoted to info-level issues (only the
optional-field ones: confidence `low` with an empty suggested value). -/
def rowFirstPassIssues (ctx : EngineCtx) (row : UploadRow) :
    Except Unit (List ValidationIssue) := do
  let ruleIssues ← ctx.rules.foldlM (fun acc rule => do
    let issues ← applyRule ctx rule row
    pure (acc ++ issues)) ([] : List ValidationIssue)
  let data := rowData row
  let infoIssues := (getEnrichmentSuggestions ctx.entries data).filterMap (fun s =>
    if s.confidence == Confidence.low && s.suggestedValue.isEmpty then
      some (⟨s.field, "optional_field_suggestion", Severity.info, s.reason⟩ :
        ValidationIssue)
    else none)
  pure (ruleIssues ++ infoIssues)

/-- The final per-row loop of `validate`: statuses and the three counters,
in row order.  Accumulator: `(results, passCount, errorCount, warningCount)`. -/
def statusFold (merged : List (String × List ValidationIssue))
    (rows : List UploadRow) :
    List (String × List ValidationIssue × RowStatus) × Nat × Nat × Nat :=
  rows.foldl (fun acc row =>
    let allIssues := (amapGet merged row.id).getD []
    let hasErrors := allIssues.any (fun i => i.severity == Severity.error)
    let hasWarnings := allIssues.any (fun i => i.severity == Severity.warning)
    if hasErrors then
      (acc.1 ++ [(row.id, allIssues, RowStatus.error)], acc.2.1, acc.2.2.1 + 1, acc.2.2.2)
    else if hasWarnings then
      (acc.1 ++ [(row.id, allIssues, RowStatus.warning)], acc.2.1, acc.2.2.1, acc.2.2.2 + 1)
    else
      (acc.1 ++ [(row.id, allIssues, RowStatus.pass)], acc.2.1 + 1, acc.2.2.1, acc.2.2.2))
    ([], 0, 0, 0)

/-- `ValidationEngine.validate` for one upload, over the loaded snapshot:
first pass per row, cross-record pass, merge, statuses/counters, health
score.  `.error` models the run aborting on an uncaught exception. -/
def validateUpload (ctx : EngineCtx) (rows : List UploadRow) :
    Except Unit RunResult := do
  let rowIssues ← rows.mapM (fun row => do
    let issues ← rowFirstPassIssues ctx row
    pure (row.id, issues))
  let pc := validateParentChildRelationships rows
  let merged := pc.foldl (fun m p =>
    amapSet m p.1 ((amapGet m p.1).getD [] ++ p.2)) rowIssues
  let counted := statusFold merged rows
  let totalRows := rows.length
  let passCount := counted.2.1
  let healthScore : ℚ :=
    if totalRows > 0 then ((passCount : ℚ) / (totalRows : ℚ)) * 100 else 0
  pure ⟨counted.1, totalRows, passCount, counted.2.2.1, counted.2.2.2, healthScore⟩

/-- Characterization of a 12/13-digit barcode shape (used to state C1). -/
def goodBarcodeShape (s : List Char) : Prop :=
  (s.length = 12 ∨ s.length = 13) ∧ ∀ c ∈ s, isDigitChar c = true

instance (s : List Char) : Decidable (goodBarcodeShape s) := by
  unfold goodBarcodeShape; infer_instance

deriving instance DecidableEq for Except

/-! ### Concrete fixtures used by witnesses and counterexamples -/

/-- A regex engine that compiles nothing (models `new RegExp` throwing on
every pattern; only rules that reach compilation observe it). -/
def regexNever : List Char → Option (List Char → Bool) := fun _ => none

/-- A required-rule on `item_sku`, severity error. -/
def wRuleSkuRequired : ValidationRule :=
  ⟨"r-sku", "item_sku", RuleType.required, emptyConfig, Severity.error,
   "sku required".toList, true, 1⟩

def wCtx : EngineCtx := ⟨[wRuleSkuRequired], [], [], regexNever⟩

/-- A row missing `item_sku` but carrying every recommended optional field,
so the only issue of a run is the required-rule error. -/
def wRowMissingSku : UploadRow :=
  ⟨"a", 1,
   [("bullet_point2", vstr "y".toList), ("bullet_point3", vstr "y".toList),
    ("bullet_point4", vstr "y".toList), ("bullet_point5", vstr "y".toList),
    ("other_image_url1", vstr "y".toList), ("other_image_url2", vstr "y".toList),
    ("material_type", vstr "y".toList), ("fabric_type", vstr "y".toList),
    ("care_instructions", vstr "y".toList), ("country_of_origin", vstr "y".toList),
    ("manufacturer", vstr "y".toList)],
   none, RowStatus.pending⟩

def wIssueSku : ValidationIssue :=
  ⟨"item_sku", "r-sku", Severity.error, "sku required".toList⟩

/-- A custom barcode-check-digit rule on `external_product_id`. -/
def wRuleBarcode : ValidationRule :=
  ⟨"r-bc", "external_product_id", RuleType.custom,
   ⟨none, none, none, none, none, some "validateBarcodeCheckDigit".toList, none⟩,
   Severity.error, "bad barcode".toList, true, 1⟩

def wCtxBc : EngineCtx := ⟨[wRuleBarcode], [], [], regexNever⟩

/-- A row with a present 10-digit `external_product_id`. -/
def wRowTenDigit : UploadRow :=
  ⟨"t", 1, [("external_product_id", vstr "1234567890".toList)], none, RowStatus.pending⟩

/-- A regex rule whose pattern `(` does not compile in JS. -/
def wRuleBadRegex : ValidationRule :=
  ⟨"r-rx", "item_sku", RuleType.regex,
   ⟨none, none, some "(".toList, none, none, none, none⟩,
   Severity.error, "bad sku".toList, true, 1⟩

/-- A max_length rule whose `max` is the non-numeric string "abc". -/
def wRuleBadMax : ValidationRule :=
  ⟨"r-mx", "item_sku", RuleType.max_length,
   ⟨some (vstr "abc".toList), none, none, none, none, none, none⟩,
   Severity.error, "too long".toList, true, 2⟩

def wCtxRegex : EngineCtx := ⟨[wRuleBadRegex, wRuleBadMax], [], [], regexNever⟩

def wRowSku : UploadRow :=
  ⟨"s", 1, [("item_sku", vstr "A".toList)], none, RowStatus.pending⟩

/-- The seed lookup entry `(color_map, Navy, Blue, brand = null)`. -/
def navyGeneric : LookupEntry :=
  ⟨"color_map".toList, "Navy".toList, "Blue".toList, none, true⟩

/-- A brand-scoped entry for the same source value. -/
def navyBrandX : LookupEntry :=
  ⟨"color_map".toList, "Navy".toList, "Azure".toList, some "AcmeBrand".toList, true⟩

def wRecNavy : JRecord := [("color_name", vstr "Navy".toList)]

def wRecNavyBrand : JRecord :=
  [("color_name", vstr "Navy".toList), ("brand_name", vstr "AcmeBrand".toList)]

/-- A parent row (`item_sku = P1`) declaring variation theme `t1`. -/
def pcParentRow (t1 : List Char) : UploadRow :=
  ⟨"rp", 1,
   [("item_sku", vstr "P1".toList), ("parent_child", vstr "parent".toList),
    ("variation_theme", vstr t1)], none, RowStatus.pending⟩

/-- A child row of `P1` declaring variation theme `t2`. -/
def pcChildRow (t2 : List Char) : UploadRow :=
  ⟨"rc", 2,
   [("item_sku", vstr "C1".toList), ("parent_child", vstr "child".toList),
    ("parent_sku", vstr "P1".toList), ("variation_theme", vstr t2)],
   none, RowStatus.pending⟩

/-- The variation-theme mismatch issue attached to the child. -/
def pcMismatch (t2 t1 : List Char) : ValidationIssue :=
  ⟨"variation_theme", "variation_theme_consistency", Severity.error,
   themeMismatchMsg (jsTrim t2) (jsTrim t1)⟩

/-- The result of validating `[wRowMissingSku]` under `wCtx`. -/
def wRunResult : RunResult :=
  ⟨[("a", [wIssueSku], RowStatus.error)], 1, 0, 1, 0,
   (((0 : ℕ) : ℚ) / ((1 : ℕ) : ℚ)) * 100⟩

/-! ## Auto-fix idempotence fixtures and invariants (claims C4 and C10) -/

/-- A lookup entry whose target value carries leading whitespace — the
database imposes no such hygiene, so `applyAutoFix` can install a value its
own whitespace pass then wants to fix again. -/
def ceEntries : List LookupEntry :=
  [⟨"color_map".toList, "Navy".toList, " Blue".toList, none, true⟩]

def ceData : JRecord := [("color_name", vstr "Navy".toList)]

/-- Hygiene of the lookup table under which auto-fix is idempotent: every
active entry's target value is its own trim.  (An empty target value needs
no exclusion: the source's `if (colorMapping)` guard already skips it.) -/
def CleanEntries (entries : List LookupEntry) : Prop :=
  ∀ e ∈ entries, e.isActive = true → jsTrim e.targetValue = e.targetValue

/-- The quantity field, if present and non-`null`, is after trimming an
optionally signed decimal string of at most 15 digits.  Its parse then
stays below 2^53, the domain on which `parseInt`/`Number.prototype.toString`
round-trip a decimal integer string exactly, as the embedding's exact
integers do; from 10^21 on, `toString` switches to exponential notation
(which `parseInt` re-reads as its mantissa), and the quantity pass is not
idempotent there. -/
def QtyTame (r : JRecord) : Prop :=
  ∀ v, jget r "quantity" = some v → v ≠ vnull →
    ∃ sign ds, (sign = ([] : List Char) ∨ sign = ['-'] ∨ sign = ['+']) ∧
      jsTrim (jvalToChars v) = sign ++ ds ∧
      (∀ c ∈ ds, isDigitChar c = true) ∧ ds.length ≤ 15

/-- Every string value of the record is unchanged by `trim()`. -/
def TrimFixed (r : JRecord) : Prop :=
  ∀ p ∈ r, ∀ s, p.2 = vstr s → jsTrim s = s

/-- The check-digit pass finds nothing to do on `r`. -/
def cdNoFire (r : JRecord) : Prop :=
  ∀ s, jget r "external_product_id" = some (vstr s) → s.isEmpty = false →
    ((digitsOnly s).length = 12 ∨ (digitsOnly s).length = 13) →
    calculateCheckDigit (digitsOnly s).dropLast = lastStr (digitsOnly s)

/-- The mapping pass finds nothing to do on `r`: when its guard holds, the
lookup misses or returns a falsy (empty) target. -/
def mappingNoFire (entries : List LookupEntry) (tt : List Char)
    (s1 s2 tf : String) (r : JRecord) : Prop :=
  (truthyO (jget2 r s1 s2) && !truthyO (jget r tf)) = true →
    ∀ t, getMapping entries tt (jvalOptToChars (jget2 r s1 s2))
      ((jgetBrand r "brand_name" "brand").map jvalToChars) = some t →
      t.isEmpty = true

/-- The SKU-normalization pass finds nothing to do on `r`. -/
def skuNoFire (r : JRecord) : Prop :=
  ∀ s, jget r "item_sku" = some (vstr s) → s.isEmpty = false →
    normalizeSku s = s

/-- The price-formatting pass finds nothing to do on `r`. -/
def priceNoFire (r : JRecord) : Prop :=
  ∀ v, jget r "standard_price" = some v → truthy v = true →
    ∀ q, parseFloatJs (jsTrim (jvalToChars v)) = some q → q > 0 →
      toFixed2 q = jsTrim (jvalToChars v)

/-- The quantity-formatting pass finds nothing to do on `r`. -/
def qtyNoFire (r : JRecord) : Prop :=
  ∀ v, jget r "quantity" = some v → v ≠ vnull →
    ∀ n, parseIntJs (jsTrim (jvalToChars v)) = some n → n ≥ 0 →
      intToChars n = jsTrim (jvalToChars v)

/-! # Lemmas -/

theorem mem_digitChars {c : Char} (h : isDigitChar c = true) :
    c = '0' ∨ c = '1' ∨ c = '2' ∨ c = '3' ∨ c = '4' ∨ c = '5' ∨ c = '6' ∨
    c = '7' ∨ c = '8' ∨ c = '9' := by
  simpa [isDigitChar, digitChars] using h

theorem digitChar_digitVal {c : Char} (h : isDigitChar c = true) :
    digitChar (digitVal c) = c := by
  rcases mem_digitChars h with h | h | h | h | h | h | h | h | h | h <;> subst h <;> decide

theorem digitVal_digitChar {d : Nat} (h : d < 10) : digitVal (digitChar d) = d := by
  interval_cases d <;> decide

theorem isDigitChar_digitChar {d : Nat} (h : d < 10) : isDigitChar (digitChar d) = true := by
  interval_cases d <;> decide

theorem digitVal_lt_ten {c : Char} (h : isDigitChar c = true) : digitVal c < 10 := by
  rcases mem_digitChars h with h | h | h | h | h | h | h | h | h | h <;> subst h <;> decide

theorem not_ws_of_digit {c : Char} (h : isDigitChar c = true) : isWsChar c = false := by
  rcases mem_digitChars h with h | h | h | h | h | h | h | h | h | h <;> subst h <;> decide

theorem digitChar_injOn {d e : Nat} (hd : d < 10) (he : e < 10)
    (h : digitChar d = digitChar e) : d = e := by
  interval_cases d <;> interval_cases e <;> simp_all <;> exact absurd h (by decide)

/-! ### `natDigits` -/

theorem natDigitsGo_irrel : ∀ f1 f2 n, n ≤ f1 → n ≤ f2 →
    natDigitsGo f1 n = natDigitsGo f2 n := by
  intro f1
  induction f1 with
  | zero =>
    intro f2 n h1 _
    interval_cases n
    cases f2 <;> simp [natDigitsGo]
  | succ f1 ih =>
    intro f2 n h1 h2
    by_cases hn : n < 10
    · cases f2 with
      | zero => interval_cases n <;> simp [natDigitsGo]
      | succ f2 => simp [natDigitsGo, hn]
    · cases f2 with
      | zero => omega
      | succ f2 =>
        simp only [natDigitsGo, hn, if_false]
        have hd : n / 10 < n := Nat.div_lt_self (by omega) (by omega)
        rw [ih f2 (n / 10) (by omega) (by omega)]

/-- The intended recurrence of `natDigits`. -/
theorem natDigits_rec (n : Nat) :
    natDigits n = if n < 10 then [n] else natDigits (n / 10) ++ [n % 10] := by
  by_cases hn : n < 10
  · unfold natDigits
    cases n with
    | zero => simp [natDigitsGo]
    | succ m => simp [natDigitsGo, hn]
  · obtain ⟨m, rfl⟩ : ∃ m, n = m + 1 := ⟨n - 1, by omega⟩
    show natDigitsGo (m + 1) (m + 1) = _
    simp only [natDigitsGo, hn, if_false]
    rw [natDigitsGo_irrel m ((m + 1) / 10) ((m + 1) / 10) (by omega) (by omega)]
    rfl

theorem natDigits_lt_ten (n : Nat) : ∀ d ∈ natDigits n, d < 10 := by
  induction n using Nat.strong_induction_on with
  | _ n ih =>
    rw [natDigits_rec]
    by_cases hn : n < 10
    · simp [hn]
    · simp only [hn, if_false, List.mem_append, List.mem_singleton]
      rintro d (hd | rfl)
      · exact ih (n / 10) (Nat.div_lt_self (by omega) (by omega)) d hd
      · omega

theorem natDigits_ne_nil (n : Nat) : natDigits n ≠ [] := by
  rw [natDigits_rec]
  by_cases hn : n < 10 <;> simp [hn]

theorem natToChars_all_digit (n : Nat) : ∀ c ∈ natToChars n, isDigitChar c = true := by
  intro c hc
  simp only [natToChars, List.mem_map] at hc
  obtain ⟨d, hd, rfl⟩ := hc
  exact isDigitChar_digitChar (natDigits_lt_ten n d hd)

theorem natToChars_ne_nil (n : Nat) : natToChars n ≠ [] := by
  simp [natToChars, natDigits_ne_nil]

theorem digitsToNat_append_singleton (xs : List Char) (c : Char) :
    digitsToNat (xs ++ [c]) = 10 * digitsToNat xs + digitVal c := by
  simp [digitsToNat, List.foldl_append]

theorem digitsToNat_natToChars (n : Nat) : digitsToNat (natToChars n) = n := by
  induction n using Nat.strong_induction_on with
  | _ n ih =>
    rw [natToChars, natDigits_rec]
    by_cases hn : n < 10
    · simp [hn, digitsToNat, digitVal_digitChar]
    · simp only [hn, if_false, List.map_append, List.map_cons, List.map_nil]
      rw [digitsToNat_append_singleton]
      rw [show (natDigits (n / 10)).map digitChar = natToChars (n / 10) from rfl]
      rw [ih (n / 10) (Nat.div_lt_self (by omega) (by omega))]
      rw [digitVal_digitChar (by omega)]
      omega

/-! ### Trimming and whitespace collapsing -/

theorem dropWhile_eq_self_of_none {p : Char → Bool} {l : List Char}
    (h : ∀ c ∈ l, p c = false) : l.dropWhile p = l := by
  cases l with
  | nil => rfl
  | cons c cs => simp [List.dropWhile, h c (by simp)]

theorem dropWhile_head_not {p : Char → Bool} :
    ∀ {l : List Char} {c : Char} {r : List Char},
    List.dropWhile p l = c :: r → p c = false := by
  intro l
  induction l with
  | nil => intro c r h; simp [List.dropWhile] at h
  | cons x xs ih =>
    intro c r h
    by_cases hx : p x
    · simp only [List.dropWhile, hx, if_true] at h
      exact ih h
    · simp only [List.dropWhile, hx, Bool.false_eq_true, if_false, List.cons.injEq] at h
      obtain ⟨rfl, -⟩ := h
      simpa using hx

theorem dropWhile_sublist_self {p : Char → Bool} : ∀ l : List Char,
    ∃ t, l = t ++ l.dropWhile p := by
  intro l
  induction l with
  | nil => exact ⟨[], rfl⟩
  | cons x xs ih =>
    by_cases hx : p x
    · obtain ⟨t, ht⟩ := ih
      exact ⟨x :: t, by simp [List.dropWhile, hx, ← ht]⟩
    · exact ⟨[], by simp [List.dropWhile, hx]⟩

theorem jsTrim_nil : jsTrim [] = [] := rfl

theorem jsTrim_eq_self_of_no_ws {s : List Char}
    (h : ∀ c ∈ s, isWsChar c = false) : jsTrim s = s := by
  unfold jsTrim
  rw [dropWhile_eq_self_of_none h,
    dropWhile_eq_self_of_none (fun c hc => h c (by simpa using hc)), List.reverse_reverse]

/-- `jsTrim s` starts with a non-whitespace character. -/
theorem jsTrim_head_not_ws {s : List Char} {c : Char} {r : List Char}
    (h : jsTrim s = c :: r) : isWsChar c = false := by
  unfold jsTrim at h
  set u := s.dropWhile isWsChar with hu
  obtain ⟨t, ht⟩ := dropWhile_sublist_self (p := isWsChar) u.reverse
  have hu2 : u = (c :: r) ++ t.reverse := by
    have h2 := congrArg List.reverse ht
    rw [List.reverse_reverse, List.reverse_append] at h2
    rw [h2, h]
  cases hcase : u with
  | nil => rw [hcase] at hu2; simp at hu2
  | cons d ds =>
    have hdc : d = c := by
      rw [hcase] at hu2
      simpa using congrArg (fun l => l.head?) hu2
    subst hdc
    exact dropWhile_head_not (p := isWsChar) (l := s) hcase

/-- `jsTrim s` ends with a non-whitespace character. -/
theorem jsTrim_getLast_not_ws {s : List Char} {c : Char}
    (h : (jsTrim s).getLast? = some c) : isWsChar c = false := by
  unfold jsTrim at h
  rw [List.getLast?_reverse] at h
  cases hcase : (s.dropWhile isWsChar).reverse.dropWhile isWsChar with
  | nil => rw [hcase] at h; simp at h
  | cons d ds =>
    rw [hcase] at h
    simp only [List.head?_cons, Option.some_inj] at h
    subst h
    exact dropWhile_head_not hcase

/-- If a list starts and ends with non-whitespace characters, `jsTrim` is the
identity on it. -/
theorem jsTrim_eq_self_of_ends {s : List Char}
    (h1 : ∀ c r, s = c :: r → isWsChar c = false)
    (h2 : ∀ c, s.getLast? = some c → isWsChar c = false) : jsTrim s = s := by
  cases s with
  | nil => rfl
  | cons c r =>
    unfold jsTrim
    rw [show (c :: r).dropWhile isWsChar = c :: r from by
      simp [List.dropWhile, h1 c r rfl]]
    obtain ⟨e, t, hrev⟩ : ∃ e t, (c :: r).reverse = e :: t := by
      cases hx : (c :: r).reverse with
      | nil => exact absurd (congrArg List.length hx) (by simp)
      | cons e t => exact ⟨e, t, rfl⟩
    have he : isWsChar e = false := by
      apply h2
      rw [← List.head?_reverse, hrev]; rfl
    rw [hrev, show (e :: t).dropWhile isWsChar = e :: t from by
      simp [List.dropWhile, he]]
    rw [← hrev, List.reverse_reverse]

theorem wsCollapseAux_cons_not_ws {b : Bool} {c : Char} {l : List Char}
    (h : isWsChar c = false) :
    wsCollapseAux b (c :: l) = c :: wsCollapseAux false l := by
  simp [wsCollapseAux, h]

theorem wsCollapseAux_cons_ws_t {c : Char} {l : List Char}
    (h : isWsChar c = true) : wsCollapseAux true (c :: l) = wsCollapseAux true l := by
  simp [wsCollapseAux, h]

theorem wsCollapseAux_cons_ws_f {c : Char} {l : List Char}
    (h : isWsChar c = true) :
    wsCollapseAux false (c :: l) = ' ' :: wsCollapseAux true l := by
  simp [wsCollapseAux, h]

theorem getLast?_cons_of_ne_nil {α : Type} {a : α} {l : List α} (h : l ≠ []) :
    (a :: l).getLast? = l.getLast? := by
  cases l with
  | nil => exact absurd rfl h
  | cons b t => exact List.getLast?_cons_cons

theorem wsCollapseAux_getLast : ∀ (l : List Char) (b : Bool) (c : Char),
    l.getLast? = some c → isWsChar c = false →
    (wsCollapseAux b l).getLast? = some c := by
  intro l
  induction l with
  | nil => intro b c h _; simp at h
  | cons x xs ih =>
    intro b c h hws
    cases xs with
    | nil =>
      simp only [List.getLast?_singleton, Option.some_inj] at h
      subst h
      rw [wsCollapseAux_cons_not_ws hws]
      rfl
    | cons y ys =>
      rw [List.getLast?_cons_cons] at h
      have tail_ne : ∀ b', wsCollapseAux b' (y :: ys) ≠ [] := by
        intro b' hnil
        have h3 := ih b' c h hws
        rw [hnil] at h3
        simp at h3
      by_cases hx : isWsChar x
      · cases b with
        | true => rw [wsCollapseAux_cons_ws_t hx]; exact ih true c h hws
        | false =>
          rw [wsCollapseAux_cons_ws_f hx, getLast?_cons_of_ne_nil (tail_ne true)]
          exact ih true c h hws
      · rw [wsCollapseAux_cons_not_ws (by simpa using hx),
          getLast?_cons_of_ne_nil (tail_ne false)]
        exact ih false c h hws

/-- The whitespace fix produces a trim-fixed string: the heart of auto-fix
idempotence for pass 1. -/
theorem jsTrim_jsWsFix (s : List Char) : jsTrim (jsWsFix s) = jsWsFix s := by
  unfold jsWsFix
  cases hu : jsTrim s with
  | nil => rfl
  | cons c r =>
    have hc : isWsChar c = false := jsTrim_head_not_ws hu
    apply jsTrim_eq_self_of_ends
    · intro d t hdt
      rw [wsCollapseAux_cons_not_ws hc] at hdt
      have hdc : d = c := by simpa using congrArg (fun l => l.head?) hdt.symm
      subst hdc; exact hc
    · intro d hd
      cases hlast : (c :: r).getLast? with
      | none => simp at hlast
      | some e =>
        have he : isWsChar e = false := by
          apply jsTrim_getLast_not_ws (s := s)
          rw [hu]; exact hlast
        rw [wsCollapseAux_getLast (c :: r) false e hlast he] at hd
        obtain rfl : e = d := by simpa using hd
        exact he

/-! ### Records: `jget` / `jset` -/

theorem jset_cons_hit {p : String × JVal} {ps : JRecord} {k : String} {v : JVal}
    (h : (p.1 == k) = true) :
    jset (p :: ps) k v = (k, v) :: ps.map (fun q => if q.1 == k then (k, v) else q) := by
  have ha : (p :: ps).any (fun q => q.1 == k) = true := by simp [List.any_cons, h]
  unfold jset
  rw [if_pos ha, List.map_cons, if_pos h]

theorem jset_cons_miss {p : String × JVal} {ps : JRecord} {k : String} {v : JVal}
    (h : (p.1 == k) = false) :
    jset (p :: ps) k v = p :: jset ps k v := by
  by_cases h2 : ps.any (fun q => q.1 == k)
  · have ha : (p :: ps).any (fun q => q.1 == k) = true := by simp [List.any_cons, h2]
    unfold jset
    rw [if_pos ha, if_pos h2, List.map_cons, if_neg (by simp [h])]
  · have h2f : ps.any (fun q => q.1 == k) = false := by
      cases hx : ps.any (fun q => q.1 == k)
      · rfl
      · exact absurd hx h2
    have ha : (p :: ps).any (fun q => q.1 == k) = false := by
      simp [List.any_cons, h, h2f]
    unfold jset
    rw [if_neg (by simp [ha]), if_neg h2, List.cons_append]

theorem jget_cons_hit {p : String × JVal} {ps : JRecord} {k : String}
    (h : (p.1 == k) = true) : jget (p :: ps) k = some p.2 := by
  simp [jget, List.find?_cons, h]

theorem jget_cons_miss {p : String × JVal} {ps : JRecord} {k : String}
    (h : (p.1 == k) = false) : jget (p :: ps) k = jget ps k := by
  simp [jget, List.find?_cons, h]

theorem beq_false_of_ne {k k' : String} (h : k ≠ k') : (k == k') = false := by
  simpa using h

theorem jget_mapSet_ne {r : JRecord} {k k' : String} {v : JVal} (hne : k' ≠ k) :
    jget (r.map (fun q => if q.1 == k then (k, v) else q)) k' = jget r k' := by
  induction r with
  | nil => rfl
  | cons p ps ih =>
    by_cases hp : (p.1 == k) = true
    · have hpk : p.1 = k := by simpa using hp
      rw [List.map_cons, if_pos hp]
      rw [jget_cons_miss (beq_false_of_ne (Ne.symm hne)),
        jget_cons_miss (by rw [hpk]; exact beq_false_of_ne (Ne.symm hne)), ih]
    · rw [List.map_cons, if_neg hp]
      by_cases hp2 : (p.1 == k') = true
      · rw [jget_cons_hit hp2, jget_cons_hit hp2]
      · rw [jget_cons_miss (by simpa using hp2), jget_cons_miss (by simpa using hp2), ih]

theorem jget_jset_self (r : JRecord) (k : String) (v : JVal) :
    jget (jset r k v) k = some v := by
  induction r with
  | nil => simp [jset, jget]
  | cons p ps ih =>
    by_cases hp : (p.1 == k) = true
    · rw [jset_cons_hit hp, jget_cons_hit (by simp)]
    · rw [jset_cons_miss (by simpa using hp), jget_cons_miss (by simpa using hp), ih]

theorem jget_jset_ne (r : JRecord) {k k' : String} (v : JVal) (hne : k' ≠ k) :
    jget (jset r k v) k' = jget r k' := by
  induction r with
  | nil =>
    simp only [jset, List.any_nil, Bool.false_eq_true, if_false, List.nil_append]
    rw [show ([(k, v)] : JRecord) = (k, v) :: [] from rfl,
      jget_cons_miss (beq_false_of_ne (Ne.symm hne))]
  | cons p ps ih =>
    by_cases hp : (p.1 == k) = true
    · have hpk : p.1 = k := by simpa using hp
      rw [jset_cons_hit hp, jget_cons_miss (beq_false_of_ne (Ne.symm hne)),
        jget_cons_miss (by rw [hpk]; exact beq_false_of_ne (Ne.symm hne))]
      exact jget_mapSet_ne hne
    · by_cases hp2 : (p.1 == k') = true
      · rw [jset_cons_miss (by simpa using hp), jget_cons_hit hp2, jget_cons_hit hp2]
      · rw [jset_cons_miss (by simpa using hp),
          jget_cons_miss (by simpa using hp2), jget_cons_miss (by simpa using hp2), ih]

theorem mem_jset {r : JRecord} {k : String} {v : JVal} {p : String × JVal}
    (h : p ∈ jset r k v) : p ∈ r ∨ p = (k, v) := by
  unfold jset at h
  by_cases ha : r.any (fun q => q.1 == k)
  · rw [if_pos ha] at h
    obtain ⟨q, hq, hqe⟩ := List.mem_map.mp h
    by_cases hqk : (q.1 == k) = true
    · rw [if_pos hqk] at hqe
      right; exact hqe.symm
    · rw [if_neg hqk] at hqe
      left; exact hqe ▸ hq
  · rw [if_neg ha] at h
    rcases List.mem_append.mp h with h | h
    · left; exact h
    · right; simpa using h

/-! ### Parse/render round trips -/

theorem takeWhile_all {p : Char → Bool} {l : List Char}
    (h : ∀ c ∈ l, p c = true) : l.takeWhile p = l := by
  induction l with
  | nil => rfl
  | cons c cs ih =>
    rw [List.takeWhile_cons, if_pos (h c (by simp))]
    rw [ih (fun d hd => h d (by simp [hd]))]

theorem takeWhile_append_stop {p : Char → Bool} {a : List Char} {c : Char}
    {b : List Char} (ha : ∀ d ∈ a, p d = true) (hc : p c = false) :
    (a ++ c :: b).takeWhile p = a ∧ (a ++ c :: b).dropWhile p = c :: b := by
  induction a with
  | nil => simp [List.takeWhile_cons, List.dropWhile, hc]
  | cons x xs ih =>
    have hx := ha x (by simp)
    obtain ⟨h1, h2⟩ := ih (fun d hd => ha d (by simp [hd]))
    constructor
    · rw [List.cons_append, List.takeWhile_cons, if_pos hx, h1]
    · rw [List.cons_append, List.dropWhile_cons, if_pos hx, h2]

theorem dropWhile_all {p : Char → Bool} {l : List Char}
    (h : ∀ c ∈ l, p c = true) : l.dropWhile p = [] := by
  induction l with
  | nil => rfl
  | cons c cs ih =>
    rw [List.dropWhile_cons, if_pos (h c (by simp))]
    exact ih (fun d hd => h d (by simp [hd]))

theorem splitSign_digit {c : Char} {r : List Char} (h : isDigitChar c = true) :
    splitSign (c :: r) = (1, c :: r) := by
  have h1 : c ≠ '-' := by
    rcases mem_digitChars h with h | h | h | h | h | h | h | h | h | h <;> subst h <;> decide
  have h2 : c ≠ '+' := by
    rcases mem_digitChars h with h | h | h | h | h | h | h | h | h | h <;> subst h <;> decide
  simp [splitSign, h1, h2]

theorem dropWhile_ws_of_digit_head {c : Char} {r : List Char}
    (h : isDigitChar c = true) : (c :: r).dropWhile isWsChar = c :: r := by
  rw [List.dropWhile_cons, if_neg (by simp [not_ws_of_digit h])]

/-- Auxiliary: a non-empty all-digit list survives the whitespace skip and
the sign split untouched. -/
theorem parse_head_digits {l : List Char} (hne : l ≠ [])
    (h : ∀ c ∈ l, isDigitChar c = true) :
    l.dropWhile isWsChar = l ∧ splitSign l = (1, l) := by
  cases l with
  | nil => exact absurd rfl hne
  | cons c r =>
    exact ⟨dropWhile_ws_of_digit_head (h c (by simp)), splitSign_digit (h c (by simp))⟩

theorem parseIntJs_natToChars (n : Nat) : parseIntJs (natToChars n) = some n := by
  obtain ⟨h1, h2⟩ := parse_head_digits (natToChars_ne_nil n) (natToChars_all_digit n)
  simp only [parseIntJs, h1, h2, takeWhile_all (natToChars_all_digit n)]
  rw [if_neg (by simpa using natToChars_ne_nil n)]
  rw [digitsToNat_natToChars]
  simp

/-- The canonical two-decimal rendering of `m/100`. -/
def canonical2 (m : Nat) : List Char :=
  natToChars (m / 100) ++ '.' :: [digitChar (m % 100 / 10), digitChar (m % 100 % 10)]

theorem ratFloor_eq_intFloor (q : ℚ) : q.floor = ⌊q⌋ :=
  (Rat.floor_def' q).trans Rat.floor_def.symm

theorem floor_nat_add_half (m : Nat) : ((m : ℚ) + 1 / 2).floor = m := by
  rw [ratFloor_eq_intFloor, Int.floor_eq_iff]
  constructor
  · push_cast; linarith
  · push_cast; linarith

theorem toFixed2_div100 (m : Nat) : toFixed2 ((m : ℚ) / 100) = canonical2 m := by
  unfold toFixed2
  have h1 : ((m : ℚ) / 100 * 100 + 1 / 2).floor = m := by
    rw [show (m : ℚ) / 100 * 100 = (m : ℚ) by field_simp]
    exact floor_nat_add_half m
  rw [h1]
  rw [if_neg (by omega)]
  simp [canonical2]

theorem digitsToNat_two (a b : Nat) (ha : a < 10) (hb : b < 10) :
    digitsToNat [digitChar a, digitChar b] = 10 * a + b := by
  simp [digitsToNat, List.foldl, digitVal_digitChar ha, digitVal_digitChar hb]

theorem parseFloatJs_canonical2 (m : Nat) :
    parseFloatJs (canonical2 m) = some ((m : ℚ) / 100) := by
  have hdot : isDigitChar '.' = false := by decide
  obtain ⟨htw, hdw⟩ := takeWhile_append_stop (b := [digitChar (m % 100 / 10),
    digitChar (m % 100 % 10)]) (natToChars_all_digit (m / 100)) hdot
  have hfr : ∀ c ∈ [digitChar (m % 100 / 10), digitChar (m % 100 % 10)],
      isDigitChar c = true := by
    intro c hc
    rcases List.mem_cons.mp hc with rfl | hc
    · exact isDigitChar_digitChar (by omega)
    · rcases List.mem_cons.mp hc with rfl | hc
      · exact isDigitChar_digitChar (by omega)
      · simp at hc
  have hws2 : (canonical2 m).dropWhile isWsChar = canonical2 m := by
    unfold canonical2
    cases hnc : natToChars (m / 100) with
    | nil => exact absurd hnc (natToChars_ne_nil _)
    | cons c cs =>
      exact dropWhile_ws_of_digit_head (natToChars_all_digit (m / 100) c (by rw [hnc]; simp))
  have hsg2 : splitSign (canonical2 m) = (1, canonical2 m) := by
    unfold canonical2
    cases hnc : natToChars (m / 100) with
    | nil => exact absurd hnc (natToChars_ne_nil _)
    | cons c cs =>
      rw [List.cons_append]
      rw [splitSign_digit (natToChars_all_digit (m / 100) c (by rw [hnc]; simp))]
  have htw2 : (canonical2 m).takeWhile isDigitChar = natToChars (m / 100) := htw
  have hdw2 : (canonical2 m).dropWhile isDigitChar =
      '.' :: [digitChar (m % 100 / 10), digitChar (m % 100 % 10)] := hdw
  have hds : (natToChars (m / 100)).isEmpty = false := by
    simpa using natToChars_ne_nil (m / 100)
  have hfr2 : ([digitChar (m % 100 / 10), digitChar (m % 100 % 10)]).takeWhile isDigitChar
      = [digitChar (m % 100 / 10), digitChar (m % 100 % 10)] := takeWhile_all hfr
  simp only [parseFloatJs, hws2, hsg2, htw2, hdw2, List.head?_cons, List.drop_one,
    List.tail_cons, hfr2, hds, Bool.false_and, Bool.and_self, if_true, if_false,
    Option.some_inj]
  rw [if_neg (by simp)]
  rw [digitsToNat_natToChars, digitsToNat_two _ _ (by omega) (by omega)]
  rw [show 10 * (m % 100 / 10) + m % 100 % 10 = m % 100 by omega]
  rw [show ((1 : ℤ) : ℚ) = 1 from rfl, one_mul]
  rw [show ((10 : ℚ) ^ ([digitChar (m % 100 / 10), digitChar (m % 100 % 10)].length)) =
    100 by norm_num]
  rw [show ((m : ℚ)) = ((100 * (m / 100) + m % 100 : ℕ) : ℚ) by rw [Nat.div_add_mod]]
  push_cast
  ring

/-! ### Check digits (claim C1) -/

theorem natToChars_singleton {e : Nat} (h : e < 10) : natToChars e = [digitChar e] := by
  unfold natToChars
  rw [natDigits_rec, if_pos h]
  rfl

theorem lastStr_eq : ∀ {l : List Char}, l ≠ [] → lastStr l = [l.getLastD '0'] := by
  intro l
  induction l with
  | nil => intro h; exact absurd rfl h
  | cons a t ih =>
    intro _
    cases t with
    | nil => rfl
    | cons b t2 =>
      have h2 : lastStr (a :: b :: t2) = lastStr (b :: t2) := by
        unfold lastStr
        have h3 : (a :: b :: t2).length - 1 = ((b :: t2).length - 1) + 1 := by simp
        rw [h3, List.drop_succ_cons]
      rw [h2, ih (by simp)]
      all_goals rw [List.getLastD_eq_getLast?, List.getLastD_eq_getLast?,
        List.getLast?_cons_cons]

theorem getLastD_mem {l : List Char} (h : l ≠ []) : l.getLastD '0' ∈ l := by
  rw [List.getLastD_eq_getLast?, List.getLast?_eq_getLast l h]
  exact List.getLast_mem h

/-- C1, amended: `validateBarcodeCheckDigit` first trims; on a trimmed
12/13-digit string it is true iff the final digit is the check digit that
`calculateCheckDigit` computes from the leading digits; every string whose
trimmed form has any other shape yields false. -/
theorem validateBarcodeCheckDigit_spec (s : List Char) :
    (goodBarcodeShape (jsTrim s) →
      (validateBarcodeCheckDigit s = true ↔
        lastStr (jsTrim s) = calculateCheckDigit (jsTrim s).dropLast))
    ∧ (¬ goodBarcodeShape (jsTrim s) → validateBarcodeCheckDigit s = false) := by
  constructor
  · intro hg
    have hb : (((jsTrim s).length == 12 || (jsTrim s).length == 13) &&
        (jsTrim s).all isDigitChar) = true := by
      simp only [Bool.and_eq_true, Bool.or_eq_true, beq_iff_eq, List.all_eq_true]
      exact ⟨hg.1, hg.2⟩
    have hne : jsTrim s ≠ [] := by
      intro h0
      rw [h0] at hg
      rcases hg.1 with h | h <;> simp at h
    have hv : validateBarcodeCheckDigit s =
        (digitVal ((jsTrim s).getLastD '0') ==
          (10 - altWeightedSum true (((jsTrim s).dropLast.map digitVal).reverse) % 10)
            % 10) := by
      simp only [validateBarcodeCheckDigit]
      rw [hb]
      simp
    set e := (10 - altWeightedSum true (((jsTrim s).dropLast.map digitVal).reverse)
      % 10) % 10 with he
    have helt : e < 10 := Nat.mod_lt _ (by omega)
    have hcalc : calculateCheckDigit (jsTrim s).dropLast = [digitChar e] := by
      unfold calculateCheckDigit
      rw [natToChars_singleton helt]
    have hlastdigit : isDigitChar ((jsTrim s).getLastD '0') = true :=
      hg.2 _ (getLastD_mem hne)
    rw [hv, hcalc, lastStr_eq hne]
    constructor
    · intro h
      have h2 : digitVal ((jsTrim s).getLastD '0') = e := by simpa using h
      rw [← digitChar_digitVal hlastdigit, h2]
    · intro h
      have h2 : (jsTrim s).getLastD '0' = digitChar e := by simpa using h
      have h3 : digitVal ((jsTrim s).getLastD '0') = e := by
        rw [h2, digitVal_digitChar helt]
      simpa using h3
  · intro hg
    have hb : (((jsTrim s).length == 12 || (jsTrim s).length == 13) &&
        (jsTrim s).all isDigitChar) = false := by
      cases hx : (((jsTrim s).length == 12 || (jsTrim s).length == 13) &&
        (jsTrim s).all isDigitChar)
      · rfl
      · exfalso
        apply hg
        rw [Bool.and_eq_true, Bool.or_eq_true, beq_iff_eq, beq_iff_eq,
          List.all_eq_true] at hx
        exact ⟨hx.1, hx.2⟩
    simp only [validateBarcodeCheckDigit]
    rw [hb]
    simp

/-- C1, counterexample to the claim as stated: a whitespace-padded barcode
is neither 12 nor 13 characters of digits, yet validates as true (the code
trims before checking). -/
theorem validateBarcodeCheckDigit_counterexample :
    validateBarcodeCheckDigit " 012345678905".toList = true ∧
    ¬ goodBarcodeShape " 012345678905".toList := by
  constructor
  · decide
  · decide

/-- C1 witness: a concrete 12-digit string on which the amended claim's
shape hypothesis holds and the equivalence evaluates. -/
theorem validateBarcodeCheckDigit_spec_witness :
    goodBarcodeShape (jsTrim "012345678905".toList) ∧
    (validateBarcodeCheckDigit "012345678905".toList = true ↔
      lastStr (jsTrim "012345678905".toList) =
        calculateCheckDigit (jsTrim "012345678905".toList).dropLast) ∧
    (¬ goodBarcodeShape (jsTrim "1234567890".toList) →
      validateBarcodeCheckDigit "1234567890".toList = false) :=
  ⟨by decide,
   (validateBarcodeCheckDigit_spec "012345678905".toList).1 (by decide),
   (validateBarcodeCheckDigit_spec "1234567890".toList).2⟩

/-! ### Status assignment and aggregation (claims C2, C3) -/

/-- The per-triple status correctness property of C2. -/
def StatusCorrect (t : String × List ValidationIssue × RowStatus) : Prop :=
  (t.2.2 = RowStatus.error ↔ ∃ i ∈ t.2.1, i.severity = Severity.error) ∧
  (t.2.2 = RowStatus.warning ↔
    (¬ ∃ i ∈ t.2.1, i.severity = Severity.error) ∧
    ∃ i ∈ t.2.1, i.severity = Severity.warning) ∧
  (t.2.2 = RowStatus.pass ↔
    (¬ ∃ i ∈ t.2.1, i.severity = Severity.error) ∧
    ¬ ∃ i ∈ t.2.1, i.severity = Severity.warning)

theorem statusCorrect_of_branch (rid : String) (issues : List ValidationIssue) :
    StatusCorrect (rid, issues,
      if issues.any (fun i => i.severity == Severity.error) then RowStatus.error
      else if issues.any (fun i => i.severity == Severity.warning) then RowStatus.warning
      else RowStatus.pass) := by
  have he : issues.any (fun i => i.severity == Severity.error) = true ↔
      ∃ i ∈ issues, i.severity = Severity.error := by
    simp [List.any_eq_true]
  have hw : issues.any (fun i => i.severity == Severity.warning) = true ↔
      ∃ i ∈ issues, i.severity = Severity.warning := by
    simp [List.any_eq_true]
  unfold StatusCorrect
  by_cases h1 : issues.any (fun i => i.severity == Severity.error) = true
  · rw [if_pos h1]
    exact ⟨⟨fun _ => he.mp h1, fun _ => rfl⟩,
      ⟨fun hc => RowStatus.noConfusion hc, fun hx => absurd (he.mp h1) hx.1⟩,
      ⟨fun hc => RowStatus.noConfusion hc, fun hx => absurd (he.mp h1) hx.1⟩⟩
  · have h1f : ¬ ∃ i ∈ issues, i.severity = Severity.error := fun hx => h1 (he.mpr hx)
    by_cases h2 : issues.any (fun i => i.severity == Severity.warning) = true
    · rw [if_neg h1, if_pos h2]
      exact ⟨⟨fun hc => RowStatus.noConfusion hc, fun hx => absurd hx h1f⟩,
        ⟨fun _ => ⟨h1f, hw.mp h2⟩, fun _ => rfl⟩,
        ⟨fun hc => RowStatus.noConfusion hc, fun hx => absurd (hw.mp h2) hx.2⟩⟩
    · have h2f : ¬ ∃ i ∈ issues, i.severity = Severity.warning :=
        fun hx => h2 (hw.mpr hx)
      rw [if_neg h1, if_neg h2]
      exact ⟨⟨fun hc => RowStatus.noConfusion hc, fun hx => absurd hx h1f⟩,
        ⟨fun hc => RowStatus.noConfusion hc, fun hx => absurd hx.2 h2f⟩,
        ⟨fun _ => ⟨h1f, h2f⟩, fun _ => rfl⟩⟩

theorem statusFold_go (merged : List (String × List ValidationIssue)) :
    ∀ (rows : List UploadRow)
      (acc : List (String × List ValidationIssue × RowStatus) × Nat × Nat × Nat),
      (∀ t ∈ acc.1, StatusCorrect t) →
      acc.2.1 = (acc.1.filter (fun t => t.2.2 == RowStatus.pass)).length →
      (∀ t ∈ (rows.foldl (fun acc row =>
        let allIssues := (amapGet merged row.id).getD []
        let hasErrors := allIssues.any (fun i => i.severity == Severity.error)
        let hasWarnings := allIssues.any (fun i => i.severity == Severity.warning)
        if hasErrors then
          (acc.1 ++ [(row.id, allIssues, RowStatus.error)], acc.2.1, acc.2.2.1 + 1, acc.2.2.2)
        else if hasWarnings then
          (acc.1 ++ [(row.id, allIssues, RowStatus.warning)], acc.2.1, acc.2.2.1, acc.2.2.2 + 1)
        else
          (acc.1 ++ [(row.id, allIssues, RowStatus.pass)], acc.2.1 + 1, acc.2.2.1, acc.2.2.2))
        acc).1, StatusCorrect t) ∧
      (rows.foldl (fun acc row =>
        let allIssues := (amapGet merged row.id).getD []
        let hasErrors := allIssues.any (fun i => i.severity == Severity.error)
        let hasWarnings := allIssues.any (fun i => i.severity == Severity.warning)
        if hasErrors then
          (acc.1 ++ [(row.id, allIssues, RowStatus.error)], acc.2.1, acc.2.2.1 + 1, acc.2.2.2)
        else if hasWarnings then
          (acc.1 ++ [(row.id, allIssues, RowStatus.warning)], acc.2.1, acc.2.2.1, acc.2.2.2 + 1)
        else
          (acc.1 ++ [(row.id, allIssues, RowStatus.pass)], acc.2.1 + 1, acc.2.2.1, acc.2.2.2))
        acc).2.1 =
      ((rows.foldl (fun acc row =>
        let allIssues := (amapGet merged row.id).getD []
        let hasErrors := allIssues.any (fun i => i.severity == Severity.error)
        let hasWarnings := allIssues.any (fun i => i.severity == Severity.warning)
        if hasErrors then
          (acc.1 ++ [(row.id, allIssues, RowStatus.error)], acc.2.1, acc.2.2.1 + 1, acc.2.2.2)
        else if hasWarnings then
          (acc.1 ++ [(row.id, allIssues, RowStatus.warning)], acc.2.1, acc.2.2.1, acc.2.2.2 + 1)
        else
          (acc.1 ++ [(row.id, allIssues, RowStatus.pass)], acc.2.1 + 1, acc.2.2.1, acc.2.2.2))
        acc).1.filter (fun t => t.2.2 == RowStatus.pass)).length := by
  intro rows
  induction rows with
  | nil => intro acc h1 h2; exact ⟨h1, h2⟩
  | cons row rest ih =>
    intro acc h1 h2
    rw [List.foldl_cons]
    dsimp only
    by_cases he : ((amapGet merged row.id).getD []).any
        (fun i => i.severity == Severity.error) = true
    · rw [if_pos he]
      apply ih
      · intro t ht
        rcases List.mem_append.mp ht with ht | ht
        · exact h1 t ht
        · obtain rfl : t = (row.id, (amapGet merged row.id).getD [], RowStatus.error) := by
            simpa using ht
          have hsc := statusCorrect_of_branch row.id ((amapGet merged row.id).getD [])
          rw [if_pos he] at hsc
          exact hsc
      · simp only [List.filter_append, List.length_append]
        rw [show (List.filter (fun (t : String × List ValidationIssue × RowStatus) =>
          t.2.2 == RowStatus.pass)
          [(row.id, (amapGet merged row.id).getD [], RowStatus.error)]).length
          = 0 from rfl]
        simpa using h2
    · by_cases hw : ((amapGet merged row.id).getD []).any
          (fun i => i.severity == Severity.warning) = true
      · rw [if_neg he, if_pos hw]
        apply ih
        · intro t ht
          rcases List.mem_append.mp ht with ht | ht
          · exact h1 t ht
          · obtain rfl : t = (row.id, (amapGet merged row.id).getD [],
                RowStatus.warning) := by
              simpa using ht
            have hsc := statusCorrect_of_branch row.id ((amapGet merged row.id).getD [])
            rw [if_neg he, if_pos hw] at hsc
            exact hsc
        · simp only [List.filter_append, List.length_append]
          rw [show (List.filter (fun (t : String × List ValidationIssue × RowStatus) =>
            t.2.2 == RowStatus.pass)
            [(row.id, (amapGet merged row.id).getD [], RowStatus.warning)]).length
            = 0 from rfl]
          simpa using h2
      · rw [if_neg he, if_neg hw]
        apply ih
        · intro t ht
          rcases List.mem_append.mp ht with ht | ht
          · exact h1 t ht
          · obtain rfl : t = (row.id, (amapGet merged row.id).getD [],
                RowStatus.pass) := by
              simpa using ht
            have hsc := statusCorrect_of_branch row.id ((amapGet merged row.id).getD [])
            rw [if_neg he, if_neg hw] at hsc
            exact hsc
        · simp only [List.filter_append, List.length_append]
          rw [show (List.filter (fun (t : String × List ValidationIssue × RowStatus) =>
            t.2.2 == RowStatus.pass)
            [(row.id, (amapGet merged row.id).getD [], RowStatus.pass)]).length
            = 1 from rfl]
          omega

theorem statusFold_spec (merged : List (String × List ValidationIssue))
    (rows : List UploadRow) :
    (∀ t ∈ (statusFold merged rows).1, StatusCorrect t) ∧
    (statusFold merged rows).2.1 =
      ((statusFold merged rows).1.filter (fun t => t.2.2 == RowStatus.pass)).length := by
  exact statusFold_go merged rows ([], 0, 0, 0) (by simp) (by simp)

/-- Destructuring a successful run. -/
theorem validateUpload_ok {ctx : EngineCtx} {rows : List UploadRow} {res : RunResult}
    (h : validateUpload ctx rows = Except.ok res) :
    ∃ rowIssues,
      res.rowResults = (statusFold
        ((validateParentChildRelationships rows).foldl (fun m p =>
          amapSet m p.1 ((amapGet m p.1).getD [] ++ p.2)) rowIssues) rows).1 ∧
      res.totalRows = rows.length ∧
      res.passCount = (statusFold
        ((validateParentChildRelationships rows).foldl (fun m p =>
          amapSet m p.1 ((amapGet m p.1).getD [] ++ p.2)) rowIssues) rows).2.1 ∧
      res.healthScore = (if rows.length > 0 then
        ((res.passCount : ℚ) / (rows.length : ℚ)) * 100 else 0) := by
  unfold validateUpload at h
  cases hm : rows.mapM (fun row => do
      let issues ← rowFirstPassIssues ctx row
      pure (row.id, issues)) with
  | error e => rw [hm] at h; exact absurd h (by simp [Bind.bind, Except.bind])
  | ok ri =>
    rw [hm] at h
    simp only [Bind.bind, Except.bind, pure, Except.pure] at h
    refine ⟨ri, ?_⟩
    obtain rfl : res = _ := (Except.ok.inj h).symm
    simp

/-- C2: in a completed validation run, every record's persisted status is
`error` iff it has an error-severity issue, `warning` iff it has no error
issue and some warning issue, and `pass` otherwise. -/
theorem claim_C2 (ctx : EngineCtx) (rows : List UploadRow) (res : RunResult)
    (h : validateUpload ctx rows = Except.ok res) :
    ∀ t ∈ res.rowResults, StatusCorrect t := by
  obtain ⟨ri, hrr, -, -, -⟩ := validateUpload_ok h
  rw [hrr]
  exact (statusFold_spec _ rows).1

theorem claim_C2_witness :
    validateUpload wCtx [wRowMissingSku] = Except.ok wRunResult ∧
    StatusCorrect ("a", [wIssueSku], RowStatus.error) :=
  ⟨rfl, claim_C2 wCtx [wRowMissingSku] wRunResult rfl
    ("a", [wIssueSku], RowStatus.error) (by decide)⟩

/-- C3: a completed run reports `totalRows` = number of rows, `passCount` =
number of pass-status rows, and `healthScore = passCount/totalRows × 100`
when the upload is non-empty, `0` when it is empty. -/
theorem claim_C3 (ctx : EngineCtx) (rows : List UploadRow) (res : RunResult)
    (h : validateUpload ctx rows = Except.ok res) :
    res.totalRows = rows.length ∧
    res.passCount = (res.rowResults.filter (fun t => t.2.2 == RowStatus.pass)).length ∧
    (rows.length > 0 →
      res.healthScore = ((res.passCount : ℚ) / (rows.length : ℚ)) * 100) ∧
    (rows.length = 0 → res.healthScore = 0) := by
  obtain ⟨ri, hrr, htot, hpass, hhs⟩ := validateUpload_ok h
  refine ⟨htot, ?_, ?_, ?_⟩
  · rw [hpass, hrr]
    exact (statusFold_spec _ rows).2
  · intro hlen
    rw [hhs, if_pos hlen]
  · intro hlen
    rw [hhs, if_neg (by omega)]

theorem claim_C3_witness :
    validateUpload wCtx [wRowMissingSku] = Except.ok wRunResult ∧
    (wRunResult.totalRows = [wRowMissingSku].length ∧
     wRunResult.passCount =
       (wRunResult.rowResults.filter (fun t => t.2.2 == RowStatus.pass)).length ∧
     ([wRowMissingSku].length > 0 →
       wRunResult.healthScore =
         ((wRunResult.passCount : ℚ) / ([wRowMissingSku].length : ℚ)) * 100) ∧
     ([wRowMissingSku].length = 0 → wRunResult.healthScore = 0)) :=
  ⟨rfl, claim_C3 wCtx [wRowMissingSku] wRunResult rfl⟩

/-- C6, counterexample to the claim as stated: a present 10-digit value under
a `validateBarcodeCheckDigit` custom rule IS flagged (one issue), not passed
silently. -/
theorem claim_C6_counterexample :
    isFieldPresent (jget (rowData wRowTenDigit) wRuleBarcode.fieldName) = true ∧
    ¬ goodBarcodeShape (jsTrim "1234567890".toList) ∧
    applyRule wCtxBc wRuleBarcode wRowTenDigit =
      Except.ok [⟨"external_product_id", "r-bc", Severity.error, "bad barcode".toList⟩] ∧
    applyRule wCtxBc wRuleBarcode wRowTenDigit ≠ Except.ok [] := by
  refine ⟨by decide, by decide, by decide, by decide⟩

/-- C6, amended: for a custom rule dispatching `validateBarcodeCheckDigit`
and a record whose value for the rule's field is present but not (after
trimming) a valid 12/13-digit barcode shape, `applyRule` produces exactly
one issue for that rule — non-matching shapes are flagged, not silently
passed. -/
theorem claim_C6_amended (ctx : EngineCtx) (rule : ValidationRule) (row : UploadRow)
    (hrt : rule.ruleType = RuleType.custom)
    (hfn : rule.ruleConfig.function = some "validateBarcodeCheckDigit".toList)
    (hp : isFieldPresent (jget (rowData row) rule.fieldName) = true)
    (hshape : ¬ goodBarcodeShape
      (jsTrim (jvalOptToChars (jget (rowData row) rule.fieldName)))) :
    applyRule ctx rule row = Except.ok [mkIssue rule rule.message] := by
  have hv : validateBarcodeCheckDigit
      (jvalOptToChars (jget (rowData row) rule.fieldName)) = false :=
    (validateBarcodeCheckDigit_spec _).2 hshape
  unfold applyRule
  rw [hrt, hfn]
  dsimp only
  rw [if_neg (by decide : ¬ ("validateBarcodeCheckDigit".toList ==
    "validateBulletPoints".toList) = true)]
  rw [if_pos hp]
  rw [if_pos (by decide : (("validateBarcodeCheckDigit".toList ==
    "validateUPCCheckDigit".toList) ||
    ("validateBarcodeCheckDigit".toList == "validateBarcodeCheckDigit".toList)) = true)]
  rw [hv]
  rfl

theorem claim_C6_amended_witness :
    (wRuleBarcode.ruleType = RuleType.custom ∧
     wRuleBarcode.ruleConfig.function = some "validateBarcodeCheckDigit".toList ∧
     isFieldPresent (jget (rowData wRowTenDigit) wRuleBarcode.fieldName) = true ∧
     ¬ goodBarcodeShape (jsTrim (jvalOptToChars
       (jget (rowData wRowTenDigit) wRuleBarcode.fieldName)))) ∧
    applyRule wCtxBc wRuleBarcode wRowTenDigit =
      Except.ok [mkIssue wRuleBarcode wRuleBarcode.message] :=
  ⟨⟨rfl, rfl, by decide, by decide⟩,
   claim_C6_amended wCtxBc wRuleBarcode wRowTenDigit rfl rfl (by decide) (by decide)⟩

/-- C7: evaluating the code at the failing input.  A regex rule whose
pattern does not compile makes `applyRule` throw (the `SyntaxError` of
`new RegExp` propagates — there is no handler in `applyRule` or in
`validate`, so the run crashes), while a `max_length` rule with a
non-numeric `max` does not throw and simply yields no issue.  The claim
says neither may crash the run. -/
theorem claim_C7_crash :
    applyRule wCtxRegex wRuleBadRegex wRowSku = Except.error () ∧
    applyRule wCtxRegex wRuleBadMax wRowSku = Except.ok [] ∧
    validateUpload wCtxRegex [wRowSku] = Except.error () := by
  refine ⟨by decide, by decide, by rfl⟩

/-- C9, counterexample to the claim as stated: the title "Hi!!!!" has more
than 3 punctuation marks AND a consecutive run, and receives TWO identical
"excessive punctuation" issues, not one. -/
theorem claim_C9_counterexample :
    ((validateTitleQuality "Hi!!!!".toList []).2.count excessivePunctMsg) = 2 := by
  decide

theorem count_titleMissingIssue (lt : List Char) (o : Option JVal) (msg : List Char)
    (h : msg ≠ excessivePunctMsg) :
    (titleMissingIssue lt o msg).count excessivePunctMsg = 0 := by
  unfold titleMissingIssue
  cases o with
  | none => rfl
  | some v =>
    dsimp only
    by_cases h1 : (truthy v && !(jsTrim (jvalToChars v)).isEmpty) = true
    · rw [if_pos h1]
      by_cases h2 : (!listContains lt (jsToLower (jsTrim (jvalToChars v)))) = true
      · rw [if_pos h2]
        simp [List.count_cons, h]
      · rw [if_neg h2]; rfl
    · rw [if_neg h1]; rfl

theorem count_ite_singleton (b : Bool) (msg : List Char) (h : msg ≠ excessivePunctMsg) :
    (if b = true then [msg] else ([] : List (List Char))).count excessivePunctMsg = 0 := by
  cases b
  · rfl
  · simp [List.count_cons, h]

/-- C9, amended: `validateTitleQuality` emits one "excessive punctuation"
issue per triggered condition — one when exactly one of {more than 3 marks
total, a run of 2 or more consecutive marks} holds, and two identical
issues when both hold. -/
theorem claim_C9_amended (title : List Char) (data : JRecord)
    (hne : ¬ (title.isEmpty || (jsTrim title).isEmpty) = true) :
    ((validateTitleQuality title data).2.count excessivePunctMsg) =
      (if ((jsTrim title).filter isPunctChar).length > 3 then 1 else 0) +
      (if hasConsecPunct (jsTrim title) = true then 1 else 0) := by
  unfold validateTitleQuality
  rw [if_neg hne]
  simp only [List.count_append]
  rw [count_titleMissingIssue _ _ _ (by decide),
    count_titleMissingIssue _ _ _ (by decide),
    count_titleMissingIssue _ _ _ (by decide),
    count_titleMissingIssue _ _ _ (by decide),
    count_ite_singleton _ _ (by decide)]
  by_cases hc1 : ((jsTrim title).filter isPunctChar).length > 3
  · rw [if_pos hc1, if_pos hc1]
    by_cases hc2 : hasConsecPunct (jsTrim title) = true
    · rw [if_pos hc2, if_pos hc2]
      simp [List.count_cons]
    · rw [if_neg hc2, if_neg hc2]
      simp [List.count_cons]
  · rw [if_neg hc1, if_neg hc1]
    by_cases hc2 : hasConsecPunct (jsTrim title) = true
    · rw [if_pos hc2, if_pos hc2]
      simp [List.count_cons]
    · rw [if_neg hc2, if_neg hc2]
      simp [List.count_cons]

theorem claim_C9_amended_witness :
    (¬ ("Ok!!!!".toList.isEmpty || (jsTrim "Ok!!!!".toList).isEmpty) = true) ∧
    ((validateTitleQuality "Ok!!!!".toList []).2.count excessivePunctMsg) =
      (if ((jsTrim "Ok!!!!".toList).filter isPunctChar).length > 3 then 1 else 0) +
      (if hasConsecPunct (jsTrim "Ok!!!!".toList) = true then 1 else 0) :=
  ⟨by decide, claim_C9_amended "Ok!!!!".toList [] (by decide)⟩

/-! ### Lookup resolution (claim C8) -/

theorem find?_eq_of_unique {p : LookupEntry → Bool} {l : List LookupEntry}
    {e : LookupEntry} (he : e ∈ l) (hpe : p e = true)
    (huniq : ∀ e2 ∈ l, p e2 = true → e2 = e) : l.find? p = some e := by
  induction l with
  | nil => simp at he
  | cons a t ih =>
    by_cases hpa : p a = true
    · rw [List.find?_cons_of_pos _ hpa]
      rw [huniq a (by simp) hpa]
    · rw [List.find?_cons_of_neg _ (by simpa using hpa)]
      rcases List.mem_cons.mp he with rfl | he2
      · exact absurd hpe hpa
      · exact ih he2 (fun e2 h2 hp2 => huniq e2 (by simp [h2]) hp2)

theorem find?_eq_none_of_all {p : LookupEntry → Bool} {l : List LookupEntry}
    (h : ∀ e ∈ l, p e = false) : l.find? p = none :=
  List.find?_eq_none.mpr (fun a ha => by simp [h a ha])

/-- The guard of `getMapping` falls through for a name with non-empty trim. -/
theorem getMapping_open {entries : List LookupEntry} {tableType name : List Char}
    {brand : Option (List Char)} (htrim : jsTrim name ≠ []) :
    getMapping entries tableType name brand =
      (match (match brand with
        | some b =>
          if !b.isEmpty then entries.find? (entryMatches tableType (jsTrim name) (some b))
          else none
        | none => none) with
      | some e => some e.targetValue
      | none =>
        (entries.find? (entryMatches tableType (jsTrim name) none)).map
          LookupEntry.targetValue) := by
  have hname : name ≠ [] := by
    intro h0; rw [h0] at htrim; exact htrim jsTrim_nil
  unfold getMapping
  rw [if_neg (by simp [hname, htrim])]

/-- C8: `getColorMapping`/`getSizeMapping` (both instances of `getMapping`)
trim the source value; with a supplied (truthy) brand they return the target
of the active brand-scoped entry when one exists, else fall back to the
active generic entry, else null; and on the concrete seed data enrichment
suggests `color_map = "Blue"` for `color_name = "Navy"`, with a matching
brand-scoped entry taking precedence over the generic one. -/
theorem claim_C8 :
    (∀ (entries : List LookupEntry) (tableType name b : List Char) (e : LookupEntry),
      b ≠ [] → jsTrim name ≠ [] → e ∈ entries →
      entryMatches tableType (jsTrim name) (some b) e = true →
      (∀ e2 ∈ entries, entryMatches tableType (jsTrim name) (some b) e2 = true → e2 = e) →
      getMapping entries tableType name (some b) = some e.targetValue) ∧
    (∀ (entries : List LookupEntry) (tableType name b : List Char) (e : LookupEntry),
      b ≠ [] → jsTrim name ≠ [] →
      (∀ e2 ∈ entries, entryMatches tableType (jsTrim name) (some b) e2 = false) →
      e ∈ entries → entryMatches tableType (jsTrim name) none e = true →
      (∀ e2 ∈ entries, entryMatches tableType (jsTrim name) none e2 = true → e2 = e) →
      getMapping entries tableType name (some b) = some e.targetValue) ∧
    (∀ (entries : List LookupEntry) (tableType name b : List Char),
      b ≠ [] →
      (∀ e2 ∈ entries, entryMatches tableType (jsTrim name) (some b) e2 = false) →
      (∀ e2 ∈ entries, entryMatches tableType (jsTrim name) none e2 = false) →
      getMapping entries tableType name (some b) = none) ∧
    (getColorMapping = fun entries => getMapping entries "color_map".toList) ∧
    (getSizeMapping = fun entries => getMapping entries "size_map".toList) ∧
    (∃ sug ∈ getEnrichmentSuggestions [navyGeneric] wRecNavy,
      sug.field = "color_map" ∧ sug.suggestedValue = "Blue".toList) ∧
    getColorMapping [navyGeneric, navyBrandX] "Navy".toList
      (some "AcmeBrand".toList) = some "Azure".toList ∧
    getColorMapping [navyGeneric, navyBrandX] "Navy".toList
      (some "OtherBrand".toList) = some "Blue".toList := by
  refine ⟨?_, ?_, ?_, rfl, rfl, ?_, by decide, by decide⟩
  · intro entries tableType name b e hb htrim he hm huniq
    rw [getMapping_open htrim]
    dsimp only
    rw [if_pos (by simpa using hb), find?_eq_of_unique he hm huniq]
  · intro entries tableType name b e hb htrim hnone he hm huniq
    rw [getMapping_open htrim]
    dsimp only
    rw [if_pos (by simpa using hb), find?_eq_none_of_all hnone]
    rw [find?_eq_of_unique he hm huniq]
    rfl
  · intro entries tableType name b hb hnone1 hnone2
    by_cases htrim : jsTrim name = []
    · unfold getMapping
      rw [if_pos (by simp [htrim])]
    · rw [getMapping_open htrim]
      dsimp only
      rw [if_pos (by simpa using hb), find?_eq_none_of_all hnone1]
      rw [find?_eq_none_of_all hnone2]
      rfl
  · refine ⟨⟨"color_map", "Blue".toList, Confidence.high,
      "Mapped from color_name \"".toList ++ "Navy".toList ++
        "\" using lookup table".toList⟩, ?_, rfl, rfl⟩
    decide

theorem claim_C8_witness :
    ("AcmeBrand".toList ≠ ([] : List Char) ∧
     jsTrim "Navy".toList ≠ [] ∧
     navyBrandX ∈ [navyGeneric, navyBrandX] ∧
     entryMatches "color_map".toList (jsTrim "Navy".toList)
       (some "AcmeBrand".toList) navyBrandX = true) ∧
    getMapping [navyGeneric, navyBrandX] "color_map".toList "Navy".toList
      (some "AcmeBrand".toList) = some navyBrandX.targetValue :=
  ⟨⟨by decide, by decide, by decide, by decide⟩,
   claim_C8.1 [navyGeneric, navyBrandX] "color_map".toList "Navy".toList
     "AcmeBrand".toList navyBrandX (by decide) (by decide) (by decide) (by decide)
     (by decide)⟩

/-! ### Parent/child variation-theme pass (claim C5) -/

/-- C5, counterexample to the claim as stated: when the child row precedes
the parent row, the mismatch produces TWO issues on the child, not exactly
one. -/
theorem claim_C5_counterexample :
    jsTrim "Color".toList ≠ jsTrim "Size".toList ∧
    ((amapGet (validateParentChildRelationships
      [pcChildRow "Color".toList, pcParentRow "Size".toList]) "rc").getD []).length = 2 := by
  exact ⟨by decide, by decide⟩

theorem pc_buildSkuIndex1 (t1 t2 : List Char) :
    buildSkuIndex [pcParentRow t1, pcChildRow t2] =
      ([("P1".toList, pcParentRow t1), ("C1".toList, pcChildRow t2)], ["P1".toList]) := rfl

theorem pc_buildSkuIndex2 (t1 t2 : List Char) :
    buildSkuIndex [pcChildRow t2, pcParentRow t1] =
      ([("C1".toList, pcChildRow t2), ("P1".toList, pcParentRow t1)], ["P1".toList]) := rfl

theorem pc_childRowIssues1 (t1 t2 : List Char) (hb1 : t1.isEmpty = false)
    (hb2 : t2.isEmpty = false) (hbne : (jsTrim t2 != jsTrim t1) = true) :
    childRowIssues [("P1".toList, pcParentRow t1), ("C1".toList, pcChildRow t2)]
      ["P1".toList] (pcChildRow t2) = [pcMismatch t2 t1] := by
  show (if (!t2.isEmpty && !t1.isEmpty) = true then
      (if (jsTrim t2 != jsTrim t1) = true then [pcMismatch t2 t1] else []) else [])
    = [pcMismatch t2 t1]
  rw [hb1, hb2, hbne]
  simp

theorem pc_childRowIssues2 (t1 t2 : List Char) (hb1 : t1.isEmpty = false)
    (hb2 : t2.isEmpty = false) (hbne : (jsTrim t2 != jsTrim t1) = true) :
    childRowIssues [("C1".toList, pcChildRow t2), ("P1".toList, pcParentRow t1)]
      ["P1".toList] (pcChildRow t2) = [pcMismatch t2 t1] := by
  show (if (!t2.isEmpty && !t1.isEmpty) = true then
      (if (jsTrim t2 != jsTrim t1) = true then [pcMismatch t2 t1] else []) else [])
    = [pcMismatch t2 t1]
  rw [hb1, hb2, hbne]
  simp

theorem pc_parentRowIssues1 (t1 t2 : List Char)
    (m : List (String × List ValidationIssue)) (hb1 : t1.isEmpty = false)
    (hb2 : t2.isEmpty = false) (hbne : (jsTrim t2 != jsTrim t1) = true) :
    parentRowIssues [pcParentRow t1, pcChildRow t2] (pcParentRow t1) m =
      amapSet m "rc" ((amapGet m "rc").getD [] ++ [pcMismatch t2 t1]) := by
  show (if (!t1.isEmpty) = true then
      (if (!t2.isEmpty) = true then
        (if (jsTrim t2 != jsTrim t1) = true then
          amapSet m "rc" ((amapGet m "rc").getD [] ++ [pcMismatch t2 t1]) else m)
      else m) else m)
    = amapSet m "rc" ((amapGet m "rc").getD [] ++ [pcMismatch t2 t1])
  rw [hb1, hb2, hbne]
  simp

theorem pc_parentRowIssues2 (t1 t2 : List Char)
    (m : List (String × List ValidationIssue)) (hb1 : t1.isEmpty = false)
    (hb2 : t2.isEmpty = false) (hbne : (jsTrim t2 != jsTrim t1) = true) :
    parentRowIssues [pcChildRow t2, pcParentRow t1] (pcParentRow t1) m =
      amapSet m "rc" ((amapGet m "rc").getD [] ++ [pcMismatch t2 t1]) := by
  show (if (!t1.isEmpty) = true then
      (if (!t2.isEmpty) = true then
        (if (jsTrim t2 != jsTrim t1) = true then
          amapSet m "rc" ((amapGet m "rc").getD [] ++ [pcMismatch t2 t1]) else m)
      else m) else m)
    = amapSet m "rc" ((amapGet m "rc").getD [] ++ [pcMismatch t2 t1])
  rw [hb1, hb2, hbne]
  simp

set_option maxHeartbeats 4000000 in
/-- C5, amended: for an upload of a parent and a matching child whose
trimmed variation themes differ, all mismatch issues attach to the child and
none to the parent; exactly one issue when the parent row precedes the
child, and two identical issues when the child row precedes the parent. -/
theorem claim_C5_amended (t1 t2 : List Char) (h1 : t1 ≠ []) (h2 : t2 ≠ [])
    (hne : jsTrim t2 ≠ jsTrim t1) :
    amapGet (validateParentChildRelationships [pcParentRow t1, pcChildRow t2]) "rc"
      = some [pcMismatch t2 t1] ∧
    amapGet (validateParentChildRelationships [pcParentRow t1, pcChildRow t2]) "rp"
      = none ∧
    amapGet (validateParentChildRelationships [pcChildRow t2, pcParentRow t1]) "rc"
      = some [pcMismatch t2 t1, pcMismatch t2 t1] ∧
    amapGet (validateParentChildRelationships [pcChildRow t2, pcParentRow t1]) "rp"
      = none := by
  have hb1 : t1.isEmpty = false := by
    cases t1
    · exact absurd rfl h1
    · rfl
  have hb2 : t2.isEmpty = false := by
    cases t2
    · exact absurd rfl h2
    · rfl
  have hbne : (jsTrim t2 != jsTrim t1) = true := by simpa using hne
  have e1 : validateParentChildRelationships [pcParentRow t1, pcChildRow t2] =
      (if (!(childRowIssues (buildSkuIndex [pcParentRow t1, pcChildRow t2]).1
          (buildSkuIndex [pcParentRow t1, pcChildRow t2]).2 (pcChildRow t2)).isEmpty) = true
       then amapSet (parentRowIssues [pcParentRow t1, pcChildRow t2] (pcParentRow t1) [])
         "rc" (childRowIssues (buildSkuIndex [pcParentRow t1, pcChildRow t2]).1
           (buildSkuIndex [pcParentRow t1, pcChildRow t2]).2 (pcChildRow t2))
       else parentRowIssues [pcParentRow t1, pcChildRow t2] (pcParentRow t1) []) := rfl
  have e2 : validateParentChildRelationships [pcChildRow t2, pcParentRow t1] =
      parentRowIssues [pcChildRow t2, pcParentRow t1] (pcParentRow t1)
        (if (!(childRowIssues (buildSkuIndex [pcChildRow t2, pcParentRow t1]).1
            (buildSkuIndex [pcChildRow t2, pcParentRow t1]).2 (pcChildRow t2)).isEmpty) = true
         then amapSet [] "rc" (childRowIssues (buildSkuIndex [pcChildRow t2, pcParentRow t1]).1
           (buildSkuIndex [pcChildRow t2, pcParentRow t1]).2 (pcChildRow t2))
         else []) := rfl
  have hm1 : validateParentChildRelationships [pcParentRow t1, pcChildRow t2] =
      [("rc", [pcMismatch t2 t1])] := by
    rw [e1, pc_buildSkuIndex1]
    rw [show (((("P1".toList, pcParentRow t1) :: [("C1".toList, pcChildRow t2)],
      ["P1".toList]) : List (List Char × UploadRow) × List (List Char))).1 =
      [("P1".toList, pcParentRow t1), ("C1".toList, pcChildRow t2)] from rfl]
    rw [show (((("P1".toList, pcParentRow t1) :: [("C1".toList, pcChildRow t2)],
      ["P1".toList]) : List (List Char × UploadRow) × List (List Char))).2 =
      ["P1".toList] from rfl]
    rw [pc_childRowIssues1 t1 t2 hb1 hb2 hbne,
      pc_parentRowIssues1 t1 t2 [] hb1 hb2 hbne]
    rfl
  have hm2 : validateParentChildRelationships [pcChildRow t2, pcParentRow t1] =
      [("rc", [pcMismatch t2 t1, pcMismatch t2 t1])] := by
    rw [e2, pc_buildSkuIndex2]
    rw [show (((("C1".toList, pcChildRow t2) :: [("P1".toList, pcParentRow t1)],
      ["P1".toList]) : List (List Char × UploadRow) × List (List Char))).1 =
      [("C1".toList, pcChildRow t2), ("P1".toList, pcParentRow t1)] from rfl]
    rw [show (((("C1".toList, pcChildRow t2) :: [("P1".toList, pcParentRow t1)],
      ["P1".toList]) : List (List Char × UploadRow) × List (List Char))).2 =
      ["P1".toList] from rfl]
    rw [pc_childRowIssues2 t1 t2 hb1 hb2 hbne]
    rw [show (if (!([pcMismatch t2 t1]).isEmpty) = true
        then amapSet [] "rc" [pcMismatch t2 t1]
        else ([] : List (String × List ValidationIssue)))
      = [("rc", [pcMismatch t2 t1])] from rfl]
    rw [pc_parentRowIssues2 t1 t2 [("rc", [pcMismatch t2 t1])] hb1 hb2 hbne]
    rfl
  refine ⟨?_, ?_, ?_, ?_⟩
  · rw [hm1]; rfl
  · rw [hm1]; rfl
  · rw [hm2]; rfl
  · rw [hm2]; rfl

theorem claim_C5_amended_witness :
    ("Size".toList ≠ ([] : List Char) ∧ "Color".toList ≠ ([] : List Char) ∧
     jsTrim "Color".toList ≠ jsTrim "Size".toList) ∧
    amapGet (validateParentChildRelationships
      [pcParentRow "Size".toList, pcChildRow "Color".toList]) "rc"
      = some [pcMismatch "Color".toList "Size".toList] ∧
    amapGet (validateParentChildRelationships
      [pcParentRow "Size".toList, pcChildRow "Color".toList]) "rp" = none ∧
    amapGet (validateParentChildRelationships
      [pcChildRow "Color".toList, pcParentRow "Size".toList]) "rc"
      = some [pcMismatch "Color".toList "Size".toList,
              pcMismatch "Color".toList "Size".toList] ∧
    amapGet (validateParentChildRelationships
      [pcChildRow "Color".toList, pcParentRow "Size".toList]) "rp" = none :=
  ⟨⟨by decide, by decide, by decide⟩,
   claim_C5_amended "Size".toList "Color".toList (by decide) (by decide) (by decide)⟩

/-! ### Auto-fix helper lemmas (claims C4 and C10) -/

theorem digitChar_mem (d : Nat) : digitChar d ∈ digitChars := by
  rcases Nat.lt_or_ge d 10 with h | h
  · interval_cases d <;> decide
  · unfold digitChar
    rw [List.getD_eq_default _ _ (by rw [show digitChars.length = 10 from rfl]; omega)]
    decide

theorem isDigitChar_digitChar_any (d : Nat) : isDigitChar (digitChar d) = true := by
  have h := digitChar_mem d
  revert h
  unfold isDigitChar digitChars
  intro h
  simpa using h

theorem upper_fixed : ∀ c ∈ upperAlphaChars, toUpperChar c = c := by decide

theorem toUpperChar_cases (c : Char) :
    toUpperChar c = c ∨ toUpperChar c ∈ upperAlphaChars := by
  unfold toUpperChar
  cases hf : (lowerAlphaChars.zip upperAlphaChars).find? (fun p => p.1 == c) with
  | none => left; rfl
  | some p =>
    right
    have hm := List.mem_of_find?_eq_some hf
    obtain ⟨a, b⟩ := p
    simpa using (List.of_mem_zip hm).2

theorem toUpperChar_idem (c : Char) :
    toUpperChar (toUpperChar c) = toUpperChar c := by
  rcases toUpperChar_cases c with h | h
  · rw [h, h]
  · exact upper_fixed _ h

theorem jsTrim_of_digits {s : List Char}
    (h : ∀ c ∈ s, isDigitChar c = true) : jsTrim s = s :=
  jsTrim_eq_self_of_no_ws (fun c hc => not_ws_of_digit (h c hc))

theorem calculateCheckDigit_all_digit (xs : List Char) :
    ∀ c ∈ calculateCheckDigit xs, isDigitChar c = true := by
  intro c hc
  exact natToChars_all_digit _ c hc

theorem lastStr_concat (xs : List Char) (c : Char) : lastStr (xs ++ [c]) = [c] := by
  unfold lastStr
  rw [List.length_append, show [c].length = 1 from rfl, Nat.add_sub_cancel]
  exact List.drop_left xs [c]

theorem intToChars_nonneg {n : Int} (h : 0 ≤ n) :
    intToChars n = natToChars n.toNat := by
  unfold intToChars
  rw [if_neg (by omega)]

theorem normalizeSku_no_ws (s : List Char) :
    ∀ c ∈ normalizeSku s, isWsChar c = false := by
  intro c hc
  have := (List.mem_filter.mp hc).2
  simpa using this

theorem jsTrim_normalizeSku (s : List Char) :
    jsTrim (normalizeSku s) = normalizeSku s :=
  jsTrim_eq_self_of_no_ws (normalizeSku_no_ws s)

theorem jsToUpper_normalizeSku (s : List Char) :
    jsToUpper (normalizeSku s) = normalizeSku s := by
  have h : ∀ c ∈ normalizeSku s, toUpperChar c = c := by
    intro c hc
    have hm := (List.mem_filter.mp hc).1
    obtain ⟨a, _, rfl⟩ := List.mem_map.mp hm
    exact toUpperChar_idem a
  unfold jsToUpper
  rw [List.map_congr_left h, List.map_id']

theorem jsStripWs_normalizeSku (s : List Char) :
    jsStripWs (normalizeSku s) = normalizeSku s := by
  unfold jsStripWs
  rw [List.filter_eq_self.mpr]
  intro c hc
  simpa using normalizeSku_no_ws s c hc

theorem normalizeSku_idem (s : List Char) :
    normalizeSku (normalizeSku s) = normalizeSku s := by
  conv_lhs => rw [normalizeSku, jsTrim_normalizeSku, jsToUpper_normalizeSku,
    jsStripWs_normalizeSku]

theorem toFixed2_no_ws (q : ℚ) : ∀ c ∈ toFixed2 q, isWsChar c = false := by
  intro c hc
  unfold toFixed2 at hc
  dsimp only at hc
  split at hc
  · rcases List.mem_cons.mp hc with rfl | hc
    · decide
    · rcases List.mem_append.mp hc with hc | hc
      · exact not_ws_of_digit (natToChars_all_digit _ c hc)
      · rcases List.mem_cons.mp hc with rfl | hc
        · decide
        · rcases List.mem_cons.mp hc with rfl | hc
          · exact not_ws_of_digit (isDigitChar_digitChar_any _)
          · rcases List.mem_cons.mp hc with rfl | hc
            · exact not_ws_of_digit (isDigitChar_digitChar_any _)
            · simp at hc
  · rcases List.mem_append.mp hc with hc | hc
    · exact not_ws_of_digit (natToChars_all_digit _ c hc)
    · rcases List.mem_cons.mp hc with rfl | hc
      · decide
      · rcases List.mem_cons.mp hc with rfl | hc
        · exact not_ws_of_digit (isDigitChar_digitChar_any _)
        · rcases List.mem_cons.mp hc with rfl | hc
          · exact not_ws_of_digit (isDigitChar_digitChar_any _)
          · simp at hc

theorem jsTrim_toFixed2 (q : ℚ) : jsTrim (toFixed2 q) = toFixed2 q :=
  jsTrim_eq_self_of_no_ws (toFixed2_no_ws q)

theorem toFixed2_nonneg {q : ℚ} (h : 0 ≤ (q * 100 + 1 / 2).floor) :
    toFixed2 q = canonical2 ((q * 100 + 1 / 2).floor).toNat := by
  unfold toFixed2 canonical2
  rw [if_neg (by omega)]

theorem toFixed2_roundtrip {q q2 : ℚ} (hq : 0 < q)
    (hp : parseFloatJs (toFixed2 q) = some q2) : toFixed2 q2 = toFixed2 q := by
  have hfl : (0 : Int) ≤ (q * 100 + 1 / 2).floor := by
    rw [ratFloor_eq_intFloor]
    rw [Int.le_floor]
    push_cast
    linarith
  rw [toFixed2_nonneg hfl] at hp
  rw [parseFloatJs_canonical2] at hp
  have hq2 : q2 = (((q * 100 + 1 / 2).floor).toNat : ℚ) / 100 := by
    exact (Option.some_inj.mp hp).symm
  rw [hq2, toFixed2_div100, toFixed2_nonneg hfl]

theorem trimFixed_jset {r : JRecord} {k : String} {s : List Char}
    (hr : TrimFixed r) (hs : jsTrim s = s) : TrimFixed (jset r k (vstr s)) := by
  intro p hp s2 hps
  rcases mem_jset hp with hp | hp
  · exact hr p hp s2 hps
  · rw [hp] at hps
    have : s = s2 := by simpa using hps
    rw [← this]
    exact hs

theorem trimFixed_jget {r : JRecord} {k : String} {s : List Char}
    (hr : TrimFixed r) (h : jget r k = some (vstr s)) : jsTrim s = s := by
  unfold jget at h
  cases hf : r.find? (fun p => p.1 == k) with
  | none => rw [hf] at h; simp at h
  | some p =>
    rw [hf] at h
    simp only [Option.map_some'] at h
    exact hr p (List.mem_of_find?_eq_some hf) s (by simpa using h)

theorem find?_map_keyfix {g : String × JVal → String × JVal}
    (hg : ∀ p, (g p).1 = p.1) (l : JRecord) (f : String) :
    (l.map g).find? (fun p => p.1 == f) = (l.find? (fun p => p.1 == f)).map g := by
  induction l with
  | nil => rfl
  | cons p ps ih =>
    rw [List.map_cons]
    by_cases hp : (p.1 == f) = true
    · have h1 : List.find? (fun q => q.1 == f) (p :: ps) = some p :=
        List.find?_cons_of_pos _ hp
      have h2 : List.find? (fun q => q.1 == f) (g p :: List.map g ps) = some (g p) :=
        List.find?_cons_of_pos _ (show ((g p).1 == f) = true by rw [hg]; exact hp)
      rw [h1, h2]
      rfl
    · have h1 : List.find? (fun q => q.1 == f) (p :: ps) =
          List.find? (fun q => q.1 == f) ps :=
        List.find?_cons_of_neg _ (by simpa using hp)
      have h2 : List.find? (fun q => q.1 == f) (g p :: List.map g ps) =
          List.find? (fun q => q.1 == f) (List.map g ps) :=
        List.find?_cons_of_neg _
          (show ¬ ((g p).1 == f) = true by rw [hg]; simpa using hp)
      rw [h1, h2, ih]

theorem wsfun_key (p : String × JVal) :
    ((fun p : String × JVal => match p.2 with
      | vstr s => if s != jsTrim s then (p.1, vstr (jsWsFix s)) else p
      | _ => p) p).1 = p.1 := by
  obtain ⟨k, v⟩ := p
  cases v with
  | vstr s => dsimp only; split <;> rfl
  | vnum n => rfl
  | vnull => rfl

theorem autoFixWs_find (data : JRecord) (f : String) :
    (autoFixWs data).1.find? (fun p => p.1 == f) =
      (data.find? (fun p => p.1 == f)).map
        (fun p => match p.2 with
          | vstr s => if s != jsTrim s then (p.1, vstr (jsWsFix s)) else p
          | _ => p) := by
  unfold autoFixWs
  dsimp only
  exact find?_map_keyfix wsfun_key data f

theorem autoFixWs_noop {data : JRecord} (h : TrimFixed data) :
    autoFixWs data = (data, []) := by
  unfold autoFixWs
  refine Prod.ext ?_ ?_
  · dsimp only
    rw [show data = List.map id data from (List.map_id data).symm]
    conv_lhs => rw [List.map_id]
    apply List.map_congr_left
    intro p hp
    obtain ⟨k, v⟩ := p
    cases v with
    | vstr s =>
      have hs : jsTrim s = s := h (k, vstr s) hp s rfl
      dsimp only
      rw [hs]
      simp
    | vnum n => rfl
    | vnull => rfl
  · dsimp only
    rw [List.filterMap_eq_nil_iff]
    intro p hp
    obtain ⟨k, v⟩ := p
    cases v with
    | vstr s =>
      have hs : jsTrim s = s := h (k, vstr s) hp s rfl
      dsimp only
      rw [hs]
      simp
    | vnum n => rfl
    | vnull => rfl

theorem autoFixWs_trimFixed (data : JRecord) : TrimFixed (autoFixWs data).1 := by
  intro p hp s hps
  unfold autoFixWs at hp
  dsimp only at hp
  obtain ⟨q, hq, hqe⟩ := List.mem_map.mp hp
  obtain ⟨k, v⟩ := q
  cases v with
  | vstr s0 =>
    dsimp only at hqe
    split at hqe
    · rw [← hqe] at hps
      have : jsWsFix s0 = s := by simpa using hps
      rw [← this]
      exact jsTrim_jsWsFix s0
    · rename_i hcond
      rw [← hqe] at hps
      have h0 : s0 = s := by simpa using hps
      have : s0 = jsTrim s0 := by simpa using hcond
      rw [← h0, ← this]
  | vnum n =>
    rw [← hqe] at hps
    simp at hps
  | vnull =>
    rw [← hqe] at hps
    simp at hps

theorem autoFixWs_frame (data : JRecord) (f : String)
    (hne : jget (autoFixWs data).1 f ≠ jget data f) :
    ∃ fix ∈ (autoFixWs data).2, fix.field = f := by
  rw [jget, jget, autoFixWs_find] at hne
  cases hf : data.find? (fun p => p.1 == f) with
  | none => rw [hf] at hne; simp at hne
  | some p =>
    rw [hf] at hne
    obtain ⟨k, v⟩ := p
    have hkf : k = f := by
      have := List.find?_some hf
      simpa using this
    cases v with
    | vstr s =>
      simp only [Option.map_some'] at hne
      by_cases hcond : (s != jsTrim s) = true
      · rw [if_pos hcond] at hne
        dsimp only at hne
        have hfix : jsWsFix s ≠ s := by
          intro he
          rw [he] at hne
          exact hne rfl
        refine ⟨⟨k, vstr s, vstr (jsWsFix s), FixType.whitespace,
          "Removed leading/trailing whitespace and normalized spaces".toList⟩, ?_, hkf⟩
        unfold autoFixWs
        dsimp only
        apply List.mem_filterMap.mpr
        refine ⟨(k, vstr s), List.mem_of_find?_eq_some hf, ?_⟩
        dsimp only
        rw [if_pos hcond, if_pos (bne_iff_ne.mpr (fun he => hfix he.symm))]
      · rw [if_neg hcond] at hne
        exact absurd rfl hne
    | vnum n => simp at hne
    | vnull => simp at hne

theorem autoFixCheckDigit_shape (st : JRecord × List AutoFix) :
    autoFixCheckDigit st = st ∨ ∃ v fix, fix.field = "external_product_id" ∧
      autoFixCheckDigit st = (jset st.1 "external_product_id" v, st.2 ++ [fix]) := by
  unfold autoFixCheckDigit
  dsimp only
  repeat' split
  all_goals first
    | (left; rfl)
    | (right; exact ⟨_, _, rfl, rfl⟩)

theorem autoFixMapping_shape (entries : List LookupEntry) (tt : List Char)
    (s1 s2 tf : String) (d : List Char) (st : JRecord × List AutoFix) :
    autoFixMapping entries tt s1 s2 tf d st = st ∨ ∃ v fix, fix.field = tf ∧
      autoFixMapping entries tt s1 s2 tf d st = (jset st.1 tf v, st.2 ++ [fix]) := by
  unfold autoFixMapping
  dsimp only
  repeat' split
  all_goals first
    | (left; rfl)
    | (right; exact ⟨_, _, rfl, rfl⟩)

theorem autoFixItemSku_shape (st : JRecord × List AutoFix) :
    autoFixItemSku st = st ∨ ∃ v fix, fix.field = "item_sku" ∧
      autoFixItemSku st = (jset st.1 "item_sku" v, st.2 ++ [fix]) := by
  unfold autoFixItemSku
  dsimp only
  repeat' split
  all_goals first
    | (left; rfl)
    | (right; exact ⟨_, _, rfl, rfl⟩)

theorem autoFixPrice_shape (st : JRecord × List AutoFix) :
    autoFixPrice st = st ∨ ∃ v fix, fix.field = "standard_price" ∧
      autoFixPrice st = (jset st.1 "standard_price" v, st.2 ++ [fix]) := by
  unfold autoFixPrice
  dsimp only
  repeat' split
  all_goals first
    | (left; rfl)
    | (right; exact ⟨_, _, rfl, rfl⟩)

theorem autoFixQuantity_shape (st : JRecord × List AutoFix) :
    autoFixQuantity st = st ∨ ∃ v fix, fix.field = "quantity" ∧
      autoFixQuantity st = (jset st.1 "quantity" v, st.2 ++ [fix]) := by
  unfold autoFixQuantity
  dsimp only
  repeat' split
  all_goals first
    | (left; rfl)
    | (right; exact ⟨_, _, rfl, rfl⟩)

theorem jget_of_shape {P : JRecord × List AutoFix → JRecord × List AutoFix}
    {kf : String} (hs : ∀ st, P st = st ∨ ∃ v fix, fix.field = kf ∧
      P st = (jset st.1 kf v, st.2 ++ [fix]))
    (st : JRecord × List AutoFix) {k : String} (hk : k ≠ kf) :
    jget (P st).1 k = jget st.1 k := by
  rcases hs st with h | ⟨v, fix, _, h⟩
  · rw [h]
  · rw [h]
    exact jget_jset_ne st.1 v hk

theorem frame_of_shape {P : JRecord × List AutoFix → JRecord × List AutoFix}
    {kf : String} (hs : ∀ st, P st = st ∨ ∃ v fix, fix.field = kf ∧
      P st = (jset st.1 kf v, st.2 ++ [fix])) (st : JRecord × List AutoFix) :
    (∀ f, jget (P st).1 f ≠ jget st.1 f → ∃ fix ∈ (P st).2, fix.field = f) ∧
      ∃ l, (P st).2 = st.2 ++ l := by
  rcases hs st with h | ⟨v, fix, hf, h⟩
  · rw [h]
    exact ⟨fun f hne => absurd rfl hne, [], by simp⟩
  · rw [h]
    refine ⟨?_, [fix], rfl⟩
    intro f hne
    by_cases hfk : f = kf
    · exact ⟨fix, by simp, hfk ▸ hf⟩
    · rw [jget_jset_ne st.1 v hfk] at hne
      exact absurd rfl hne

theorem frame_trans {a b c : JRecord × List AutoFix}
    (hab : (∀ f, jget b.1 f ≠ jget a.1 f → ∃ fix ∈ b.2, fix.field = f) ∧
      ∃ l, b.2 = a.2 ++ l)
    (hbc : (∀ f, jget c.1 f ≠ jget b.1 f → ∃ fix ∈ c.2, fix.field = f) ∧
      ∃ l, c.2 = b.2 ++ l) :
    (∀ f, jget c.1 f ≠ jget a.1 f → ∃ fix ∈ c.2, fix.field = f) ∧
      ∃ l, c.2 = a.2 ++ l := by
  obtain ⟨h1, l1, hl1⟩ := hab
  obtain ⟨h2, l2, hl2⟩ := hbc
  refine ⟨?_, l1 ++ l2, by rw [hl2, hl1, List.append_assoc]⟩
  intro f hne
  by_cases hmid : jget b.1 f = jget a.1 f
  · exact h2 f (fun he => hne (he.trans hmid))
  · obtain ⟨fix, hm, hf⟩ := h1 f hmid
    exact ⟨fix, by rw [hl2]; exact List.mem_append_left _ hm, hf⟩

/-- C10: `applyAutoFix` only changes what it reports — every field whose
value in the returned record differs from its value in the input record is
named by some entry of the returned fixes list, and every field named by no
returned fix keeps its input value. -/
theorem claim_C10 (entries : List LookupEntry) (data : JRecord) :
    (∀ f, jget (applyAutoFix entries data).1 f ≠ jget data f →
      ∃ fix ∈ (applyAutoFix entries data).2, fix.field = f) ∧
    ∀ f, (∀ fix ∈ (applyAutoFix entries data).2, fix.field ≠ f) →
      jget (applyAutoFix entries data).1 f = jget data f := by
  have t1 : (∀ f, jget (autoFixWs data).1 f ≠ jget (data, ([] : List AutoFix)).1 f →
      ∃ fix ∈ (autoFixWs data).2, fix.field = f) ∧
      ∃ l, (autoFixWs data).2 = (data, ([] : List AutoFix)).2 ++ l :=
    ⟨fun f hne => autoFixWs_frame data f hne, (autoFixWs data).2, by simp⟩
  have t2 := frame_trans t1 (frame_of_shape autoFixCheckDigit_shape (autoFixWs data))
  have t3 := frame_trans t2 (frame_of_shape
    (autoFixMapping_shape entries "color_map".toList "color_name" "color" "color_map"
      "Applied color mapping from lookup table".toList)
    (autoFixCheckDigit (autoFixWs data)))
  have t4 := frame_trans t3 (frame_of_shape
    (autoFixMapping_shape entries "size_map".toList "size_name" "size" "size_map"
      "Applied size mapping from lookup table".toList)
    (autoFixMapping entries "color_map".toList "color_name" "color" "color_map"
      "Applied color mapping from lookup table".toList
      (autoFixCheckDigit (autoFixWs data))))
  have t5 := frame_trans t4 (frame_of_shape autoFixItemSku_shape
    (autoFixMapping entries "size_map".toList "size_name" "size" "size_map"
      "Applied size mapping from lookup table".toList
      (autoFixMapping entries "color_map".toList "color_name" "color" "color_map"
        "Applied color mapping from lookup table".toList
        (autoFixCheckDigit (autoFixWs data)))))
  have t6 := frame_trans t5 (frame_of_shape autoFixPrice_shape
    (autoFixItemSku (autoFixMapping entries "size_map".toList "size_name" "size"
      "size_map" "Applied size mapping from lookup table".toList
      (autoFixMapping entries "color_map".toList "color_name" "color" "color_map"
        "Applied color mapping from lookup table".toList
        (autoFixCheckDigit (autoFixWs data))))))
  have t7 := frame_trans t6 (frame_of_shape autoFixQuantity_shape
    (autoFixPrice (autoFixItemSku (autoFixMapping entries "size_map".toList
      "size_name" "size" "size_map" "Applied size mapping from lookup table".toList
      (autoFixMapping entries "color_map".toList "color_name" "color" "color_map"
        "Applied color mapping from lookup table".toList
        (autoFixCheckDigit (autoFixWs data)))))))
  obtain ⟨hframe, _⟩ := t7
  constructor
  · intro f hne
    exact hframe f hne
  · intro f hall
    by_contra hne
    obtain ⟨fix, hm, hf⟩ := hframe f hne
    exact hall fix hm hf

theorem claim_C10_witness :
    (∀ f, jget (applyAutoFix [navyGeneric] wRecNavy).1 f ≠ jget wRecNavy f →
      ∃ fix ∈ (applyAutoFix [navyGeneric] wRecNavy).2, fix.field = f) ∧
    ∀ f, (∀ fix ∈ (applyAutoFix [navyGeneric] wRecNavy).2, fix.field ≠ f) →
      jget (applyAutoFix [navyGeneric] wRecNavy).1 f = jget wRecNavy f :=
  claim_C10 [navyGeneric] wRecNavy

theorem digitsOnly_all_digit (s : List Char) :
    ∀ c ∈ digitsOnly s, isDigitChar c = true :=
  fun _ hc => (List.mem_filter.mp hc).2

theorem jsTrim_intToChars_nonneg {n : Int} (h : 0 ≤ n) :
    jsTrim (intToChars n) = intToChars n := by
  rw [intToChars_nonneg h]
  exact jsTrim_of_digits (natToChars_all_digit _)

theorem getMapping_generic_clean {entries : List LookupEntry} {tt norm t : List Char}
    (hclean : CleanEntries entries)
    (hm : (entries.find? (entryMatches tt norm none)).map LookupEntry.targetValue
      = some t) : jsTrim t = t := by
  obtain ⟨e, hfind, ht⟩ := Option.map_eq_some'.mp hm
  have hact : e.isActive = true := by
    have hp := List.find?_some hfind
    simp only [entryMatches, Bool.and_eq_true] at hp
    exact hp.2
  rw [← ht]
  exact hclean e (List.mem_of_find?_eq_some hfind) hact

theorem getMapping_clean {entries : List LookupEntry} {tt name t : List Char}
    {brand : Option (List Char)} (hclean : CleanEntries entries)
    (hm : getMapping entries tt name brand = some t) : jsTrim t = t := by
  unfold getMapping at hm
  split at hm
  · simp at hm
  · dsimp only at hm
    rcases brand with _ | b
    · exact getMapping_generic_clean hclean hm
    · dsimp only at hm
      by_cases hb : b.isEmpty
      · rw [hb] at hm
        simp only [Bool.not_true, Bool.false_eq_true, if_false] at hm
        exact getMapping_generic_clean hclean hm
      · rw [Bool.not_eq_true] at hb
        rw [hb] at hm
        simp only [Bool.not_false, if_true] at hm
        cases hfind : entries.find? (entryMatches tt (jsTrim name) (some b)) with
        | none =>
          rw [hfind] at hm
          exact getMapping_generic_clean hclean hm
        | some e =>
          rw [hfind] at hm
          dsimp only at hm
          have hact : e.isActive = true := by
            have hp := List.find?_some hfind
            simp only [entryMatches, Bool.and_eq_true] at hp
            exact hp.2
          have ht : e.targetValue = t := by simpa using hm
          rw [← ht]
          exact hclean e (List.mem_of_find?_eq_some hfind) hact

theorem autoFixCheckDigit_inv (st : JRecord × List AutoFix) (h : TrimFixed st.1) :
    TrimFixed (autoFixCheckDigit st).1 := by
  unfold autoFixCheckDigit
  dsimp only
  repeat' split
  all_goals try exact h
  dsimp only
  apply trimFixed_jset h
  apply jsTrim_of_digits
  intro c hc
  rcases List.mem_append.mp hc with hc | hc
  · exact digitsOnly_all_digit _ c ((List.dropLast_sublist _).subset hc)
  · exact calculateCheckDigit_all_digit _ c hc

theorem autoFixMapping_inv (entries : List LookupEntry) (tt : List Char)
    (s1 s2 tf : String) (d : List Char) (st : JRecord × List AutoFix)
    (hclean : CleanEntries entries) (h : TrimFixed st.1) :
    TrimFixed (autoFixMapping entries tt s1 s2 tf d st).1 := by
  unfold autoFixMapping
  dsimp only
  split
  · split
    · rename_i t heq
      split
      · dsimp only
        exact trimFixed_jset h (getMapping_clean hclean heq)
      · exact h
    · exact h
  · exact h

theorem autoFixItemSku_inv (st : JRecord × List AutoFix) (h : TrimFixed st.1) :
    TrimFixed (autoFixItemSku st).1 := by
  unfold autoFixItemSku
  dsimp only
  repeat' split
  all_goals try exact h
  dsimp only
  exact trimFixed_jset h (jsTrim_normalizeSku _)

theorem autoFixPrice_inv (st : JRecord × List AutoFix) (h : TrimFixed st.1) :
    TrimFixed (autoFixPrice st).1 := by
  unfold autoFixPrice
  dsimp only
  repeat' split
  all_goals try exact h
  all_goals
    dsimp only
    exact trimFixed_jset h (jsTrim_toFixed2 _)

theorem autoFixQuantity_inv (st : JRecord × List AutoFix) (h : TrimFixed st.1) :
    TrimFixed (autoFixQuantity st).1 := by
  unfold autoFixQuantity
  dsimp only
  repeat' split
  all_goals try exact h
  all_goals
    rename_i n hn hq
    dsimp only
    exact trimFixed_jset h (jsTrim_intToChars_nonneg (by exact_mod_cast hn))

theorem autoFixCheckDigit_noop {r : JRecord} {l : List AutoFix} (h : cdNoFire r) :
    autoFixCheckDigit (r, l) = (r, l) := by
  unfold autoFixCheckDigit
  dsimp only
  split
  · rename_i s heq
    split
    · rename_i hne
      split
      · rename_i hlen
        split
        · rename_i hfire
          exfalso
          have hs : s.isEmpty = false := by simpa using hne
          have hl : (digitsOnly s).length = 12 ∨ (digitsOnly s).length = 13 := by
            simpa using hlen
          rw [h s heq hs hl] at hfire
          simp at hfire
        · rfl
      · rfl
    · rfl
  · rfl

theorem autoFixMapping_noop {entries : List LookupEntry} {tt : List Char}
    {s1 s2 tf : String} {d : List Char} {r : JRecord} {l : List AutoFix}
    (h : mappingNoFire entries tt s1 s2 tf r) :
    autoFixMapping entries tt s1 s2 tf d (r, l) = (r, l) := by
  unfold autoFixMapping
  dsimp only
  split
  · rename_i hcond
    cases hm : getMapping entries tt (jvalOptToChars (jget2 r s1 s2))
        ((jgetBrand r "brand_name" "brand").map jvalToChars) with
    | none => rfl
    | some t =>
      dsimp only
      rw [h hcond t hm]
      rfl
  · rfl

theorem autoFixItemSku_noop {r : JRecord} {l : List AutoFix} (h : skuNoFire r) :
    autoFixItemSku (r, l) = (r, l) := by
  unfold autoFixItemSku
  dsimp only
  split
  · rename_i s heq
    split
    · rename_i hne
      split
      · rename_i hfire
        exfalso
        have hs : s.isEmpty = false := by simpa using hne
        rw [h s heq hs] at hfire
        simp at hfire
      · rfl
    · rfl
  · rfl

theorem autoFixPrice_noop {r : JRecord} {l : List AutoFix} (h : priceNoFire r) :
    autoFixPrice (r, l) = (r, l) := by
  unfold autoFixPrice
  dsimp only
  cases hj : jget r "standard_price" with
  | none =>
    rw [if_neg (by decide)]
  | some v =>
    dsimp only
    split
    · rename_i htr
      have htv : truthy v = true := htr
      split
      · rename_i q hpq
        split
        · rename_i hq
          split
          · rename_i hfire
            exfalso
            rw [h v hj htv q hpq hq] at hfire
            simp at hfire
          · rfl
        · rfl
      · rfl
    · rfl

theorem autoFixQuantity_noop {r : JRecord} {l : List AutoFix} (h : qtyNoFire r) :
    autoFixQuantity (r, l) = (r, l) := by
  unfold autoFixQuantity
  dsimp only
  split
  · rfl
  · rfl
  · rename_i v hnn heq
    split
    · rename_i n hpn
      split
      · rename_i hn
        split
        · rename_i hfire
          exfalso
          rw [h v heq hnn n hpn hn] at hfire
          simp at hfire
        · rfl
      · rfl
    · rfl

theorem digitsOnly_eq_self {s : List Char}
    (h : ∀ c ∈ s, isDigitChar c = true) : digitsOnly s = s := by
  unfold digitsOnly
  exact List.filter_eq_self.mpr h

theorem calculateCheckDigit_singleton (ds : List Char) :
    ∃ e, e < 10 ∧ calculateCheckDigit ds = [digitChar e] := by
  refine ⟨(10 - altWeightedSum true ((ds.map digitVal).reverse) % 10) % 10,
    Nat.mod_lt _ (by omega), ?_⟩
  unfold calculateCheckDigit
  exact natToChars_singleton (Nat.mod_lt _ (by omega))

theorem checkdigit_concat_fixed (s : List Char) :
    calculateCheckDigit (digitsOnly ((digitsOnly s).dropLast ++
        calculateCheckDigit (digitsOnly s).dropLast)).dropLast =
      lastStr (digitsOnly ((digitsOnly s).dropLast ++
        calculateCheckDigit (digitsOnly s).dropLast)) := by
  obtain ⟨e, he, hcde⟩ := calculateCheckDigit_singleton (digitsOnly s).dropLast
  have hall : ∀ c ∈ (digitsOnly s).dropLast ++
      calculateCheckDigit (digitsOnly s).dropLast, isDigitChar c = true := by
    intro c hc
    rcases List.mem_append.mp hc with hc | hc
    · exact digitsOnly_all_digit _ c ((List.dropLast_sublist _).subset hc)
    · exact calculateCheckDigit_all_digit _ c hc
  rw [digitsOnly_eq_self hall, hcde, List.dropLast_concat, lastStr_concat, hcde]

theorem autoFixCheckDigit_post (st : JRecord × List AutoFix) :
    cdNoFire (autoFixCheckDigit st).1 := by
  unfold autoFixCheckDigit
  dsimp only
  split
  · rename_i s heq
    split
    · rename_i hne
      split
      · rename_i hlen
        split
        · rename_i hfire
          dsimp only
          intro s2 hs2 _ _
          rw [jget_jset_self] at hs2
          have hs2e : s2 = (digitsOnly s).dropLast ++
              calculateCheckDigit (digitsOnly s).dropLast := by
            have := Option.some_inj.mp hs2
            simpa using this.symm
          rw [hs2e]
          exact checkdigit_concat_fixed s
        · rename_i hfire
          intro s2 hs2 _ _
          have hs2e : s2 = s := by rw [heq] at hs2; simpa using hs2.symm
          rw [hs2e]
          have hfe : (calculateCheckDigit (digitsOnly s).dropLast !=
              lastStr (digitsOnly s)) = false := by simpa using hfire
          exact eq_of_beq (by simpa using hfe)
      · rename_i hlen
        intro s2 hs2 _ hl
        have hs2e : s2 = s := by rw [heq] at hs2; simpa using hs2.symm
        rw [hs2e] at hl
        exact absurd (by rcases hl with h | h <;> simp [h]) hlen
    · rename_i hne
      intro s2 hs2 hse _
      have hs2e : s2 = s := by rw [heq] at hs2; simpa using hs2.symm
      rw [hs2e] at hse
      have hT : s.isEmpty = true := by simpa using hne
      rw [hT] at hse
      cases hse
  · rename_i hw
    intro s2 hs2 _ _
    exact absurd hs2 (by intro hx; exact hw s2 hx)

theorem autoFixMapping_post (entries : List LookupEntry) (tt : List Char)
    (s1 s2 tf : String) (d : List Char) (st : JRecord × List AutoFix) :
    mappingNoFire entries tt s1 s2 tf (autoFixMapping entries tt s1 s2 tf d st).1 := by
  unfold autoFixMapping
  dsimp only
  split
  · split
    · rename_i t heq
      split
      · rename_i hguard
        dsimp only
        intro hcond2
        exfalso
        have hT : jget (jset st.1 tf (vstr t)) tf = some (vstr t) :=
          jget_jset_self st.1 tf (vstr t)
        have hte : t.isEmpty = false := by simpa using hguard
        rw [hT] at hcond2
        simp [truthyO, truthy, hte] at hcond2
      · rename_i hguard
        intro _ t2 hm2
        rw [heq] at hm2
        have ht2 : t2 = t := by simpa using hm2.symm
        rw [ht2]
        simpa using hguard
    · rename_i heq
      intro _ t2 hm2
      rw [heq] at hm2
      cases hm2
  · rename_i hcond
    intro hcond2
    exact absurd hcond2 hcond

theorem autoFixItemSku_post (st : JRecord × List AutoFix) :
    skuNoFire (autoFixItemSku st).1 := by
  unfold autoFixItemSku
  dsimp only
  split
  · rename_i s heq
    split
    · rename_i hne
      split
      · rename_i hfire
        dsimp only
        intro s2 hs2 _
        rw [jget_jset_self] at hs2
        have hs2e : s2 = normalizeSku s := by simpa using hs2.symm
        rw [hs2e]
        exact normalizeSku_idem s
      · rename_i hfire
        intro s2 hs2 _
        have hs2e : s2 = s := by rw [heq] at hs2; simpa using hs2.symm
        rw [hs2e]
        exact (eq_of_beq (by simpa using hfire)).symm
    · rename_i hne
      intro s2 hs2 hse
      have hs2e : s2 = s := by rw [heq] at hs2; simpa using hs2.symm
      rw [hs2e] at hse
      have hT : s.isEmpty = true := by simpa using hne
      rw [hT] at hse
      cases hse
  · rename_i hw
    intro s2 hs2 _
    exact absurd hs2 (by intro hx; exact hw s2 hx)

theorem autoFixPrice_post (st : JRecord × List AutoFix) :
    priceNoFire (autoFixPrice st).1 := by
  unfold autoFixPrice
  dsimp only
  cases hj : jget st.1 "standard_price" with
  | none =>
    rw [if_neg (by decide)]
    intro v2 hv2 _ _ _ _
    rw [hj] at hv2
    cases hv2
  | some v =>
    dsimp only
    split
    · rename_i htr
      split
      · rename_i q hpq
        split
        · rename_i hq
          split
          · rename_i hfire
            dsimp only
            intro v2 hv2 _ q2 hpq2 _
            rw [jget_jset_self] at hv2
            have hv2e : v2 = vstr (toFixed2 q) := by simpa using hv2.symm
            rw [hv2e] at hpq2 ⊢
            dsimp only [jvalToChars] at hpq2 ⊢
            rw [jsTrim_toFixed2] at hpq2 ⊢
            exact toFixed2_roundtrip hq hpq2
          · rename_i hfire
            intro v2 hv2 _ q2 hpq2 _
            have hv2e : v2 = v := by rw [hj] at hv2; simpa using hv2.symm
            rw [hv2e] at hpq2 ⊢
            rw [hpq] at hpq2
            have hq2e : q2 = q := by simpa using hpq2.symm
            rw [hq2e]
            exact (eq_of_beq (by simpa using hfire)).symm
        · rename_i hq
          intro v2 hv2 _ q2 hpq2 hq2
          have hv2e : v2 = v := by rw [hj] at hv2; simpa using hv2.symm
          rw [hv2e] at hpq2
          rw [hpq] at hpq2
          have hq2e : q2 = q := by simpa using hpq2.symm
          rw [hq2e] at hq2
          exact absurd hq2 hq
      · rename_i hpq
        intro v2 hv2 _ q2 hpq2 _
        have hv2e : v2 = v := by rw [hj] at hv2; simpa using hv2.symm
        rw [hv2e] at hpq2
        rw [hpq] at hpq2
        cases hpq2
    · rename_i htr
      intro v2 hv2 htr2 _ _ _
      have hv2e : v2 = v := by rw [hj] at hv2; simpa using hv2.symm
      rw [hv2e] at htr2
      exact absurd htr2 htr

theorem autoFixQuantity_post (st : JRecord × List AutoFix) :
    qtyNoFire (autoFixQuantity st).1 := by
  unfold autoFixQuantity
  dsimp only
  split
  · rename_i heq
    intro v2 hv2 _ _ _ _
    rw [heq] at hv2
    cases hv2
  · rename_i heq
    intro v2 hv2 hnn _ _ _
    rw [heq] at hv2
    have : v2 = vnull := by simpa using hv2.symm
    exact absurd this hnn
  · rename_i v hnn heq
    split
    · rename_i n hpn
      split
      · rename_i hn
        split
        · rename_i hfire
          dsimp only
          intro v2 hv2 _ n2 hpn2 _
          rw [jget_jset_self] at hv2
          have hv2e : v2 = vstr (intToChars n) := by simpa using hv2.symm
          rw [hv2e] at hpn2 ⊢
          dsimp only [jvalToChars] at hpn2 ⊢
          rw [jsTrim_intToChars_nonneg (by exact_mod_cast hn)] at hpn2 ⊢
          rw [intToChars_nonneg (by exact_mod_cast hn)] at hpn2
          rw [parseIntJs_natToChars] at hpn2
          have hn2e : n2 = (n.toNat : Int) := by simpa using hpn2.symm
          rw [hn2e, Int.toNat_of_nonneg (by exact_mod_cast hn)]
        · rename_i hfire
          intro v2 hv2 _ n2 hpn2 _
          have hv2e : v2 = v := by rw [heq] at hv2; simpa using hv2.symm
          rw [hv2e] at hpn2 ⊢
          rw [hpn] at hpn2
          have hn2e : n2 = n := by simpa using hpn2.symm
          rw [hn2e]
          exact (eq_of_beq (by simpa using hfire)).symm
      · rename_i hn
        intro v2 hv2 _ n2 hpn2 hn2
        have hv2e : v2 = v := by rw [heq] at hv2; simpa using hv2.symm
        rw [hv2e] at hpn2
        rw [hpn] at hpn2
        have hn2e : n2 = n := by simpa using hpn2.symm
        rw [hn2e] at hn2
        exact absurd hn2 hn
    · rename_i hpn
      intro v2 hv2 _ n2 hpn2 _
      have hv2e : v2 = v := by rw [heq] at hv2; simpa using hv2.symm
      rw [hv2e] at hpn2
      rw [hpn] at hpn2
      cases hpn2

theorem cdNoFire_transport {r r2 : JRecord} (h : cdNoFire r)
    (he : jget r2 "external_product_id" = jget r "external_product_id") :
    cdNoFire r2 := by
  intro s hs hse hl
  exact h s (by rw [← he]; exact hs) hse hl

theorem mappingNoFire_transport {entries : List LookupEntry} {tt : List Char}
    {s1 s2 tf : String} {r r2 : JRecord}
    (h : mappingNoFire entries tt s1 s2 tf r)
    (h1 : jget r2 s1 = jget r s1) (h2 : jget r2 s2 = jget r s2)
    (h3 : jget r2 tf = jget r tf)
    (h4 : jget r2 "brand_name" = jget r "brand_name")
    (h5 : jget r2 "brand" = jget r "brand") :
    mappingNoFire entries tt s1 s2 tf r2 := by
  have hj2 : jget2 r2 s1 s2 = jget2 r s1 s2 := by
    unfold jget2 jsOr
    rw [h1, h2]
  have hbr : jgetBrand r2 "brand_name" "brand" = jgetBrand r "brand_name" "brand" := by
    unfold jgetBrand jget2 jsOr
    rw [h4, h5]
  intro hcond t hm
  rw [hj2, h3] at hcond
  rw [hj2, hbr] at hm
  exact h hcond t hm

theorem skuNoFire_transport {r r2 : JRecord} (h : skuNoFire r)
    (he : jget r2 "item_sku" = jget r "item_sku") : skuNoFire r2 := by
  intro s hs hse
  exact h s (by rw [← he]; exact hs) hse

theorem priceNoFire_transport {r r2 : JRecord} (h : priceNoFire r)
    (he : jget r2 "standard_price" = jget r "standard_price") : priceNoFire r2 := by
  intro v hv htv q hq hq0
  exact h v (by rw [← he]; exact hv) htv q hq hq0

/-- C4, counterexample: with a lookup entry whose target value has leading
whitespace, the second application of `applyAutoFix` to the first
application's output reports further fixes and changes the record again. -/
theorem claim_C4_counterexample :
    (applyAutoFix ceEntries (applyAutoFix ceEntries ceData).1).2 ≠ [] ∧
    (applyAutoFix ceEntries (applyAutoFix ceEntries ceData).1).1 ≠
      (applyAutoFix ceEntries ceData).1 :=
  ⟨by decide, by decide⟩

/-- C4, amended: when every active lookup entry's target value equals its
own trim, and the quantity field (if any) is an optionally signed decimal
string of at most 15 digits — the domain on which JavaScript's
`parseInt`/`toString` round a decimal integer string exactly as the
embedding's unbounded integers do — `applyAutoFix` is idempotent: a second
application to the first application's output returns that record unchanged
with an empty fixes list. -/
theorem claim_C4_amended (entries : List LookupEntry) (hclean : CleanEntries entries)
    (data : JRecord) (_hq : QtyTame data) :
    applyAutoFix entries (applyAutoFix entries data).1 =
      ((applyAutoFix entries data).1, []) := by
  set b1 := autoFixWs data
  set b2 := autoFixCheckDigit b1
  set b3 := autoFixMapping entries "color_map".toList "color_name" "color" "color_map"
    "Applied color mapping from lookup table".toList b2
  set b4 := autoFixMapping entries "size_map".toList "size_name" "size" "size_map"
    "Applied size mapping from lookup table".toList b3
  set b5 := autoFixItemSku b4
  set b6 := autoFixPrice b5
  set b7 := autoFixQuantity b6
  have hr1 : applyAutoFix entries data = b7 := rfl
  have hI1 : TrimFixed b1.1 := autoFixWs_trimFixed data
  have hI2 : TrimFixed b2.1 := autoFixCheckDigit_inv b1 hI1
  have hI3 : TrimFixed b3.1 :=
    autoFixMapping_inv entries _ _ _ _ _ b2 hclean hI2
  have hI4 : TrimFixed b4.1 :=
    autoFixMapping_inv entries _ _ _ _ _ b3 hclean hI3
  have hI5 : TrimFixed b5.1 := autoFixItemSku_inv b4 hI4
  have hI6 : TrimFixed b6.1 := autoFixPrice_inv b5 hI5
  have hI7 : TrimFixed b7.1 := autoFixQuantity_inv b6 hI6
  have g2 : ∀ k, k ≠ "external_product_id" → jget b2.1 k = jget b1.1 k :=
    fun _ hk => jget_of_shape autoFixCheckDigit_shape b1 hk
  have g3 : ∀ k, k ≠ "color_map" → jget b3.1 k = jget b2.1 k :=
    fun _ hk => jget_of_shape (autoFixMapping_shape entries "color_map".toList
      "color_name" "color" "color_map"
      "Applied color mapping from lookup table".toList) b2 hk
  have g4 : ∀ k, k ≠ "size_map" → jget b4.1 k = jget b3.1 k :=
    fun _ hk => jget_of_shape (autoFixMapping_shape entries "size_map".toList
      "size_name" "size" "size_map"
      "Applied size mapping from lookup table".toList) b3 hk
  have g5 : ∀ k, k ≠ "item_sku" → jget b5.1 k = jget b4.1 k :=
    fun _ hk => jget_of_shape autoFixItemSku_shape b4 hk
  have g6 : ∀ k, k ≠ "standard_price" → jget b6.1 k = jget b5.1 k :=
    fun _ hk => jget_of_shape autoFixPrice_shape b5 hk
  have g7 : ∀ k, k ≠ "quantity" → jget b7.1 k = jget b6.1 k :=
    fun _ hk => jget_of_shape autoFixQuantity_shape b6 hk
  have hCD : cdNoFire b7.1 := by
    refine cdNoFire_transport (autoFixCheckDigit_post b1) ?_
    rw [g7 _ (by decide), g6 _ (by decide), g5 _ (by decide), g4 _ (by decide),
      g3 _ (by decide)]
  have hColor : mappingNoFire entries "color_map".toList "color_name" "color"
      "color_map" b7.1 := by
    refine mappingNoFire_transport
      (autoFixMapping_post entries "color_map".toList "color_name" "color" "color_map"
        "Applied color mapping from lookup table".toList b2)
      ?_ ?_ ?_ ?_ ?_ <;>
      rw [g7 _ (by decide), g6 _ (by decide), g5 _ (by decide), g4 _ (by decide)]
  have hSize : mappingNoFire entries "size_map".toList "size_name" "size"
      "size_map" b7.1 := by
    refine mappingNoFire_transport
      (autoFixMapping_post entries "size_map".toList "size_name" "size" "size_map"
        "Applied size mapping from lookup table".toList b3)
      ?_ ?_ ?_ ?_ ?_ <;>
      rw [g7 _ (by decide), g6 _ (by decide), g5 _ (by decide)]
  have hSku : skuNoFire b7.1 := by
    refine skuNoFire_transport (autoFixItemSku_post b4) ?_
    rw [g7 _ (by decide), g6 _ (by decide)]
  have hPrice : priceNoFire b7.1 := by
    refine priceNoFire_transport (autoFixPrice_post b5) ?_
    rw [g7 _ (by decide)]
  have hQty : qtyNoFire b7.1 := autoFixQuantity_post b6
  rw [hr1]
  rw [show applyAutoFix entries b7.1 = autoFixQuantity (autoFixPrice (autoFixItemSku
    (autoFixMapping entries "size_map".toList "size_name" "size" "size_map"
      "Applied size mapping from lookup table".toList
      (autoFixMapping entries "color_map".toList "color_name" "color" "color_map"
        "Applied color mapping from lookup table".toList
        (autoFixCheckDigit (autoFixWs b7.1)))))) from rfl]
  rw [autoFixWs_noop hI7, autoFixCheckDigit_noop hCD, autoFixMapping_noop hColor,
    autoFixMapping_noop hSize, autoFixItemSku_noop hSku, autoFixPrice_noop hPrice,
    autoFixQuantity_noop hQty]

theorem claim_C4_amended_witness :
    (CleanEntries [navyGeneric] ∧ QtyTame wRecNavy) ∧
    applyAutoFix [navyGeneric] (applyAutoFix [navyGeneric] wRecNavy).1 =
      ((applyAutoFix [navyGeneric] wRecNavy).1, []) :=
  ⟨⟨by unfold CleanEntries; decide,
    by
      intro v hv _
      rw [show jget wRecNavy "quantity" = (none : Option JVal) from rfl] at hv
      cases hv⟩,
   claim_C4_amended [navyGeneric] (by unfold CleanEntries; decide) wRecNavy
     (by
       intro v hv _
       rw [show jget wRecNavy "quantity" = (none : Option JVal) from rfl] at hv
       cases hv)⟩

end Enricher
